import Mathlib

/- Verification development for the FERS structural-model builder
   (fers_core): a shallow embedding of the entity classes, their
   per-kind identity counters, the serialization layer and the
   geometric transformation operations, together with theorems that
   check the specification's claims against the embedded code.

   Modelling conventions:
   * Python floats are modelled as rationals (ℚ); no claim checked here
     depends on floating-point rounding.  The float square root used by
     `Member.length` is kept abstract as an explicit function argument
     `sq : ℚ → ℚ`.
   * Mutable Python objects with identity (Node, Member, MemberSet) live
     in an explicit heap; references between them are heap indices, which
     models Python object identity (`is`) faithfully.
   * Class-level id counters are an explicit `Counters` record threaded
     through the constructor embeddings.
   * Python exceptions are modelled with `Except PyErr`.  Where a
     constructor raises after having already advanced its counter, the
     exception aborts every embedded caller, so the post-error counter
     value is unobservable and the embedding returns only the error. -/

namespace FERSVerify

/-- Python exception outcomes raised by the embedded code. -/
inductive PyErr where
  | valueError (msg : String)
  | keyError (msg : String)
  | typeError (msg : String)
  | attributeError (obj attr : String)
  | indexError (msg : String)
  deriving Repr, DecidableEq

/-- Per-entity-kind class-level id counters (each Python class holds one,
`reset_counter` sets it back to 1).  Field order follows
`FERS.reset_counters`. -/
structure Counters where
  imperfectioncase : Nat := 1
  loadcase : Nat := 1
  loadcombination : Nat := 1
  member : Nat := 1
  memberhinge : Nat := 1
  memberset : Nat := 1
  node : Nat := 1
  nodalsupport : Nat := 1
  nodalload : Nat := 1
  nodalmoment : Nat := 1
  distributedload : Nat := 1
  sectionCtr : Nat := 1
  material : Nat := 1
  shapepath : Nat := 1
  deriving Repr, DecidableEq, Inhabited

/-- The counters as they stand at interpreter start / after
`FERS.reset_counters`. -/
def initialCounters : Counters := {}

/-- The `self.id = id or Kind._counter` pattern shared by the entity
constructors: an explicit truthy (non-zero) id wins, otherwise the
current counter value is used (an explicit id of 0 is falsy in Python
and falls back to the counter as well). -/
def assignedId (idOpt : Option Nat) (counter : Nat) : Nat :=
  match idOpt with
  | none => counter
  | some i => if i = 0 then counter else i

/-- The `if id is None: Kind._counter += 1` pattern: the counter is
incremented only when no explicit id was supplied; it is never advanced
past an explicitly supplied id. -/
def bumpedCounter (idOpt : Option Nat) (counter : Nat) : Nat :=
  match idOpt with
  | none => counter + 1
  | some _ => counter

/-! ## Support conditions (supportcondition.py) -/

/-- `SupportConditionType` enum. -/
inductive SupportConditionType where
  | fixed
  | free
  | spring
  | positiveOnly
  | negativeOnly
  deriving Repr, DecidableEq, Inhabited

/-- A single-degree-of-freedom support condition. -/
structure SupportCondition where
  condition_type : SupportConditionType
  stiffness : Option ℚ
  deriving Repr, DecidableEq, Inhabited

/-- `SupportCondition.__init__` + `_validate`: SPRING requires a positive
stiffness, unilateral conditions allow an optional positive stiffness,
FIXED/FREE forbid stiffness. -/
def supportConditionInit (condition_type : SupportConditionType)
    (stiffness : Option ℚ) : Except PyErr SupportCondition :=
  match condition_type with
  | .spring =>
    match stiffness with
    | none => .error (.valueError "SPRING requires a positive stiffness value.")
    | some s =>
      if s ≤ 0 then .error (.valueError "SPRING stiffness must be positive.")
      else .ok ⟨condition_type, stiffness⟩
  | .positiveOnly | .negativeOnly =>
    match stiffness with
    | some s =>
      if s ≤ 0 then
        .error (.valueError "Unilateral stiffness, if provided, must be positive.")
      else .ok ⟨condition_type, stiffness⟩
    | none => .ok ⟨condition_type, stiffness⟩
  | _ =>
    match stiffness with
    | some _ => .error (.valueError "must not specify stiffness.")
    | none => .ok ⟨condition_type, stiffness⟩

/-- The names bound in the class body of `SupportCondition`
(supportcondition.py): its methods and classmethods.  Note that the
enum members (`FIXED`, …) live on `SupportConditionType`, not on
`SupportCondition`. -/
def supportConditionClassAttrNames : List String :=
  ["__init__", "_validate", "fixed", "free", "spring",
   "positive_only", "negative_only", "to_dict", "from_dict",
   "to_display_string", "__repr__"]

/-- A class-attribute access `SupportCondition.<name>`: an
`AttributeError` when the name is not bound on the class. -/
def supportConditionClassAttr (name : String) : Except PyErr String :=
  if name ∈ supportConditionClassAttrNames then .ok name
  else .error (.attributeError "SupportCondition" name)

/-- The parameter names of `SupportCondition.__init__` (besides `self`). -/
def supportConditionInitParams : List String := ["condition_type", "stiffness"]

/-- A call `SupportCondition(<kw>=value)` with a single keyword argument:
a `TypeError` when the keyword is not a parameter of `__init__`. -/
def supportConditionCallKw (kw : String) (v : SupportConditionType) :
    Except PyErr SupportCondition :=
  if kw ∈ supportConditionInitParams then supportConditionInit v none
  else .error (.typeError ("__init__() got an unexpected keyword argument " ++ kw))

/-! ## Nodal supports (nodalsupport.py) -/

/-- A nodal support: a per-axis (`"X"`, `"Y"`, `"Z"`) dictionary of
displacement and rotation conditions. -/
structure NodalSupport where
  id : Nat
  classification : Option String
  displacement_conditions : List (String × SupportCondition)
  rotation_conditions : List (String × SupportCondition)
  deriving Repr, DecidableEq, Inhabited

/-- `NodalSupport.DIRECTIONS`. -/
def nodalSupportDirections : List String := ["X", "Y", "Z"]

/-- The evaluation of `default_condition =
SupportCondition(condition=SupportCondition.FIXED)` on the first line of
`NodalSupport.__init__`: the attribute access `SupportCondition.FIXED`
is evaluated first (the enum member lives on `SupportConditionType`, so
this is an `AttributeError`); were it to succeed, the keyword `condition`
is not a parameter of `SupportCondition.__init__` either. -/
def nodalSupportDefaultCondition : Except PyErr SupportCondition := do
  let _fixedAttr ← supportConditionClassAttr "FIXED"
  supportConditionCallKw "condition" SupportConditionType.fixed

/-- Python `dict.get(key, default)` over an association list. -/
def dictGetD {β : Type} (d : List (String × β)) (key : String) (dflt : β) : β :=
  match d.find? (fun kv => kv.1 = key) with
  | some kv => kv.2
  | none => dflt

/-- `NodalSupport.__init__`: evaluates the (failing) default condition,
then would assign the id from the counter and fill in the per-direction
condition dictionaries, defaulting every unspecified direction. -/
def nodalSupportInit (c : Counters) (idOpt : Option Nat)
    (classification : Option String)
    (displacement_conditions rotation_conditions :
      Option (List (String × SupportCondition))) :
    Except PyErr (NodalSupport × Counters) := do
  let default_condition ← nodalSupportDefaultCondition
  let theId := assignedId idOpt c.nodalsupport
  let c' := { c with nodalsupport := bumpedCounter idOpt c.nodalsupport }
  let disp :=
    match displacement_conditions with
    | some d => nodalSupportDirections.map (fun dir => (dir, dictGetD d dir default_condition))
    | none => nodalSupportDirections.map (fun dir => (dir, default_condition))
  let rot :=
    match rotation_conditions with
    | some d => nodalSupportDirections.map (fun dir => (dir, dictGetD d dir default_condition))
    | none => nodalSupportDirections.map (fun dir => (dir, default_condition))
  return (⟨theId, classification, disp, rot⟩, c')

/-! ## Member type enum

Modelled from the spec: the file `members/enums.py` (`MemberType`,
`normalize_member_type`) is not part of the sources; the spec fixes
`member_type ∈ {NORMAL, RIGID, TENSION}` as a closed variant, and
`normalize_member_type` maps an already-normalized enum value to itself. -/

/-- Modelled from the spec: the closed `MemberType` variant
{NORMAL, RIGID, TENSION} of `members/enums.py`. -/
inductive MemberType where
  | normal
  | rigid
  | tension
  deriving Repr, DecidableEq, Inhabited

/-- Modelled from the spec: the serialized string of a `MemberType`
(`member_type.value` in `Member.to_dict`). -/
def MemberType.value : MemberType → String
  | .normal => "Normal"
  | .rigid => "Rigid"
  | .tension => "Tension"

/-- Modelled from the spec: `normalize_member_type` on an argument that
already is a `MemberType` returns it unchanged (the string branch is not
exercised by these embeddings). -/
def normalizeMemberType (t : MemberType) : MemberType := t

/-! ## The entity heap

Nodes, members and member sets are mutable Python objects whose identity
matters (maps in the transformation operations are keyed by object, and
`reference_member` is rebound in place).  They live in an explicit heap;
a "pointer" is an index into the corresponding arena list. -/

/-- `Material` (material.py). -/
structure Material where
  id : Nat
  name : String
  e_mod : ℚ
  g_mod : ℚ
  density : ℚ
  yield_stress : ℚ
  deriving Repr, DecidableEq, Inhabited

/-- `Section` (section.py); `material` and `shape_path` are references. -/
structure Section where
  id : Nat
  name : String
  material : Nat
  i_y : ℚ
  i_z : ℚ
  j : ℚ
  area : ℚ
  h : Option ℚ := none
  b : Option ℚ := none
  shape_path : Option Nat := none
  deriving Repr, DecidableEq, Inhabited

/-- `Node` (node.py); `nodal_support` is a reference to a shared
`NodalSupport`. -/
structure Node where
  id : Nat
  X : ℚ
  Y : ℚ
  Z : ℚ
  classification : String := ""
  nodal_support : Option Nat := none
  deriving Repr, DecidableEq, Inhabited

/-- `Member` (member.py); node / section / hinge / member references are
heap pointers.  `weight` is the value stored by `__init__` (the given
override or the computed default). -/
structure Member where
  id : Nat
  member_type : MemberType
  start_node : Nat
  end_node : Nat
  sectionRef : Option Nat
  rotation_angle : ℚ
  start_hinge : Option Nat
  end_hinge : Option Nat
  classification : String
  chi : Option ℚ
  reference_member : Option Nat
  reference_node : Option Nat
  weight : ℚ
  deriving Repr, DecidableEq, Inhabited

/-- Modelled from the spec: `MemberSet` (memberset.py is not part of the
sources).  Per the data model it carries an id from its kind's counter,
an ordered list of Members, a classification and optional `l_y`/`l_z`. -/
structure MemberSet where
  id : Nat
  members : List Nat
  classification : String := ""
  l_y : Option ℚ := none
  l_z : Option ℚ := none
  deriving Repr, DecidableEq, Inhabited

/-- Modelled from the spec: `MemberHinge` (memberhinge.py is not in the
sources): an identified catalog entity with a per-axis hinge kind and
optional spring stiffness; only its identity is inspected here. -/
structure MemberHinge where
  id : Nat
  hinge_kind : String := ""
  stiffness : Option ℚ := none
  deriving Repr, DecidableEq, Inhabited

/-- `ShapePath` (shapepath.py); the path commands are opaque strings
here, the claims only inspect identity. -/
structure ShapePath where
  id : Nat
  name : String
  shape_commands : List String := []
  deriving Repr, DecidableEq, Inhabited

/-- The object arenas.  Allocation appends; a pointer is the index at
allocation time. -/
structure Heap where
  materials : List Material := []
  sections : List Section := []
  nodes : List Node := []
  members : List Member := []
  memberSets : List MemberSet := []
  memberHinges : List MemberHinge := []
  nodalSupports : List NodalSupport := []
  shapePaths : List ShapePath := []
  deriving Repr, DecidableEq, Inhabited

/-- Dereference a node pointer (total with a junk default; the embedded
code only ever dereferences pointers it allocated). -/
def Heap.node (h : Heap) (p : Nat) : Node := h.nodes.getD p default

def Heap.member (h : Heap) (p : Nat) : Member := h.members.getD p default

def Heap.memberSet (h : Heap) (p : Nat) : MemberSet := h.memberSets.getD p default

def Heap.sectionAt (h : Heap) (p : Nat) : Section := h.sections.getD p default

def Heap.materialAt (h : Heap) (p : Nat) : Material := h.materials.getD p default

def Heap.memberHinge (h : Heap) (p : Nat) : MemberHinge := h.memberHinges.getD p default

def Heap.nodalSupport (h : Heap) (p : Nat) : NodalSupport := h.nodalSupports.getD p default

def Heap.shapePath (h : Heap) (p : Nat) : ShapePath := h.shapePaths.getD p default

/-- In-place update of a member object (`new_member.reference_member = …`). -/
def Heap.setMember (h : Heap) (p : Nat) (m : Member) : Heap :=
  { h with members := h.members.set p m }

/-! ## Entity constructors -/

/-- `Material.__init__`. -/
def materialInit (h : Heap) (c : Counters) (name : String)
    (e_mod g_mod density yield_stress : ℚ) (material_id : Option Nat := none) :
    Nat × Heap × Counters :=
  let theId := assignedId material_id c.material
  let obj : Material := ⟨theId, name, e_mod, g_mod, density, yield_stress⟩
  (h.materials.length, { h with materials := h.materials ++ [obj] },
    { c with material := bumpedCounter material_id c.material })

/-- `Section.__init__`. -/
def sectionInit (h : Heap) (c : Counters) (name : String) (materialRef : Nat)
    (i_y i_z j area : ℚ) (hDim b : Option ℚ := none) (idOpt : Option Nat := none)
    (shape_path : Option Nat := none) : Nat × Heap × Counters :=
  let theId := assignedId idOpt c.sectionCtr
  let obj : Section := ⟨theId, name, materialRef, i_y, i_z, j, area, hDim, b, shape_path⟩
  (h.sections.length, { h with sections := h.sections ++ [obj] },
    { c with sectionCtr := bumpedCounter idOpt c.sectionCtr })

/-- `Node.__init__`. -/
def nodeInit (h : Heap) (c : Counters) (X Y Z : ℚ) (idOpt : Option Nat := none)
    (classification : String := "") (nodal_support : Option Nat := none) :
    Nat × Heap × Counters :=
  let theId := assignedId idOpt c.node
  let obj : Node := ⟨theId, X, Y, Z, classification, nodal_support⟩
  (h.nodes.length, { h with nodes := h.nodes ++ [obj] },
    { c with node := bumpedCounter idOpt c.node })

/-- `Member.length`: the Euclidean distance between the endpoint nodes.
The float square root is kept abstract as `sq`; the squared radicand is
translated exactly. -/
def memberLength (sq : ℚ → ℚ) (h : Heap) (startP endP : Nat) : ℚ :=
  let s := h.node startP
  let e := h.node endP
  sq ((e.X - s.X) ^ 2 + (e.Y - s.Y) ^ 2 + (e.Z - s.Z) ^ 2)

/-- `Member.weight` (the method): `density * area * length` when a
section exists and all three factors are truthy (non-zero), else `0.0`. -/
def memberWeightMethod (sq : ℚ → ℚ) (h : Heap) (sectionRef : Option Nat)
    (startP endP : Nat) : ℚ :=
  match sectionRef with
  | none => 0
  | some sp =>
    let L := memberLength sq h startP endP
    let sec := h.sectionAt sp
    let density := (h.materialAt sec.material).density
    if L ≠ 0 ∧ density ≠ 0 ∧ sec.area ≠ 0 then density * sec.area * L else 0

/-- `Member.__init__`: assigns the id, normalizes the member type,
enforces that a section may be omitted only for Rigid members, and
stores the given weight or the computed default. -/
def memberInit (sq : ℚ → ℚ) (h : Heap) (c : Counters)
    (start_node end_node : Nat) (sectionRef : Option Nat := none)
    (idOpt : Option Nat := none) (start_hinge end_hinge : Option Nat := none)
    (classification : String := "") (rotation_angle : ℚ := 0)
    (weightOpt : Option ℚ := none) (chi : Option ℚ := none)
    (reference_member reference_node : Option Nat := none)
    (member_type : MemberType := .normal) :
    Except PyErr (Nat × Heap × Counters) := do
  let theId := assignedId idOpt c.member
  let c' := { c with member := bumpedCounter idOpt c.member }
  let mt := normalizeMemberType member_type
  if sectionRef = none ∧ mt ≠ .rigid then
    throw (.valueError ("Section is required for member_type " ++ mt.value ++
      ". It may be omitted only for Rigid members."))
  let w :=
    match weightOpt with
    | some w => w
    | none => memberWeightMethod sq h sectionRef start_node end_node
  let obj : Member :=
    ⟨theId, mt, start_node, end_node, sectionRef, rotation_angle, start_hinge,
      end_hinge, classification, chi, reference_member, reference_node, w⟩
  return (h.members.length, { h with members := h.members ++ [obj] }, c')

/-- Modelled from the spec: `MemberSet.__init__` (memberset.py is not in
the sources): assigns an id from the member-set counter (explicit id
wins, else auto-assign) and stores the ordered member list. -/
def memberSetInit (h : Heap) (c : Counters) (members : List Nat)
    (classification : String := "") (l_y l_z : Option ℚ := none)
    (idOpt : Option Nat := none) : Nat × Heap × Counters :=
  let theId := assignedId idOpt c.memberset
  let obj : MemberSet := ⟨theId, members, classification, l_y, l_z⟩
  (h.memberSets.length, { h with memberSets := h.memberSets ++ [obj] },
    { c with memberset := bumpedCounter idOpt c.memberset })

/-! ## Python dictionaries

Insertion-ordered association lists model Python dicts: assigning to an
existing key overwrites in place (keeping its position), a new key is
appended. -/

/-- `d[k] = v` on a Python dict. -/
def odInsert {α β : Type} [DecidableEq α] (d : List (α × β)) (k : α) (v : β) :
    List (α × β) :=
  match d with
  | [] => [(k, v)]
  | (k', v') :: rest =>
    if k' = k then (k', v) :: rest else (k', v') :: odInsert rest k v

/-- `d.get(k)` on a Python dict. -/
def odGet? {α β : Type} [DecidableEq α] (d : List (α × β)) (k : α) : Option β :=
  (d.find? (fun kv => kv.1 = k)).map (·.2)

/-- `k in d` on a Python dict. -/
def odMem {α β : Type} [DecidableEq α] (d : List (α × β)) (k : α) : Bool :=
  d.any (fun kv => kv.1 = k)

/-- `list(d.values())` on a Python dict. -/
def odValues {α β : Type} (d : List (α × β)) : List β := d.map (·.2)

/-- `list(d.keys())` on a Python dict. -/
def odKeys {α β : Type} (d : List (α × β)) : List α := d.map (·.1)

/-! ## Load model (loadcase.py, nodalload.py, nodalmoment.py,
distributedload.py, loadcombination.py) -/

/-- Modelled from the spec: `DistributionShape` (distributionshape.py is
not in the sources): the distribution-shape enum
{uniform, triangular, inverse-triangular, linear}. -/
inductive DistributionShape where
  | uniform
  | triangular
  | inverseTriangular
  | linear
  deriving Repr, DecidableEq, Inhabited

/-- Modelled from the spec: the serialized string of a shape
(`distribution_shape.value`). -/
def DistributionShape.value : DistributionShape → String
  | .uniform => "uniform"
  | .triangular => "triangular"
  | .inverseTriangular => "inverse_triangular"
  | .linear => "linear"

/-- `NodalLoad`: a point load owned by a load case.  The back reference
`self.load_case` is kept as the owning case's id (the source only reads
`self.load_case.id`). -/
structure NodalLoad where
  id : Nat
  node : Nat
  load_case : Nat
  magnitude : ℚ
  direction : ℚ × ℚ × ℚ
  load_type : String := "force"
  deriving Repr, DecidableEq, Inhabited

/-- `NodalMoment`: a moment load owned by a load case. -/
structure NodalMoment where
  id : Nat
  node : Nat
  load_case : Nat
  magnitude : ℚ
  direction : ℚ × ℚ × ℚ
  load_type : String := "moment"
  deriving Repr, DecidableEq, Inhabited

/-- `DistributedLoad`: a line load on a member, owned by a load case. -/
structure DistributedLoad where
  id : Nat
  member : Nat
  load_case : Nat
  distribution_shape : DistributionShape
  magnitude : ℚ
  direction : ℚ × ℚ × ℚ
  start_frac : ℚ
  end_frac : ℚ
  end_magnitude : ℚ
  deriving Repr, DecidableEq, Inhabited

/-- `LoadCase`: an append-only owner of loads. The imperfection lists
hold bare ids here (they are serialized as ids). -/
structure LoadCase where
  id : Nat
  name : String
  nodal_loads : List NodalLoad := []
  nodal_moments : List NodalMoment := []
  distributed_loads : List DistributedLoad := []
  rotation_imperfections : List Nat := []
  translation_imperfections : List Nat := []
  deriving Repr, DecidableEq, Inhabited

/-- `LoadCase.__init__`: id from the explicit value or the counter, name
defaulting to `"Loadcase {id}"`. -/
def loadCaseInit (c : Counters) (name : Option String := none)
    (idOpt : Option Nat := none) : LoadCase × Counters :=
  let theId := assignedId idOpt c.loadcase
  let theName :=
    match name with
    | none => s!"Loadcase {theId}"
    | some n => n
  ({ id := theId, name := theName },
    { c with loadcase := bumpedCounter idOpt c.loadcase })

/-- `NodalLoad.__init__`: unconditional auto id, then self-registration
with the owning case (`load_case.add_nodal_load(self)`). -/
def nodalLoadInit (c : Counters) (node : Nat) (lc : LoadCase) (magnitude : ℚ)
    (direction : ℚ × ℚ × ℚ) (load_type : String := "force") :
    NodalLoad × LoadCase × Counters :=
  let obj : NodalLoad :=
    { id := c.nodalload, node := node, load_case := lc.id,
      magnitude := magnitude, direction := direction, load_type := load_type }
  (obj, { lc with nodal_loads := lc.nodal_loads ++ [obj] },
    { c with nodalload := c.nodalload + 1 })

/-- `NodalMoment.__init__`: unconditional auto id, then self-registration
with the owning case. -/
def nodalMomentInit (c : Counters) (node : Nat) (lc : LoadCase) (magnitude : ℚ)
    (direction : ℚ × ℚ × ℚ) : NodalMoment × LoadCase × Counters :=
  let obj : NodalMoment :=
    { id := c.nodalmoment, node := node, load_case := lc.id,
      magnitude := magnitude, direction := direction }
  (obj, { lc with nodal_moments := lc.nodal_moments ++ [obj] },
    { c with nodalmoment := c.nodalmoment + 1 })

/-- The two fraction checks opening `DistributedLoad.__init__`, in
source order: both fractions must lie in [0, 1], and the start may not
reach the end. -/
def distributedLoadFracCheck (start_frac end_frac : ℚ) : Except PyErr Unit :=
  if ¬(0 ≤ start_frac ∧ start_frac ≤ 1) ∨ ¬(0 ≤ end_frac ∧ end_frac ≤ 1) then
    .error (.valueError "start_frac and end_frac must both be between 0 and 1")
  else if start_frac ≥ end_frac then
    .error (.valueError "start_frac cannot be greater or equal than end_frac")
  else .ok ()

/-- `DistributedLoad.__init__`: validates the fractions before anything
else, assigns the id, defaults `end_magnitude` to `magnitude`, and
self-registers with the owning case. -/
def distributedLoadInit (c : Counters) (member : Nat) (lc : LoadCase)
    (distribution_shape : DistributionShape := .uniform) (magnitude : ℚ := 0)
    (direction : ℚ × ℚ × ℚ := (0, -1, 0)) (start_frac : ℚ := 0)
    (end_frac : ℚ := 1) (end_magnitude : Option ℚ := none)
    (idOpt : Option Nat := none) :
    Except PyErr (DistributedLoad × LoadCase × Counters) := do
  let _ ← distributedLoadFracCheck start_frac end_frac
  let theId := assignedId idOpt c.distributedload
  let c' := { c with distributedload := bumpedCounter idOpt c.distributedload }
  let endMag := match end_magnitude with | none => magnitude | some m => m
  let obj : DistributedLoad :=
    { id := theId, member := member, load_case := lc.id,
      distribution_shape := distribution_shape, magnitude := magnitude,
      direction := direction, start_frac := start_frac, end_frac := end_frac,
      end_magnitude := endMag }
  return (obj, { lc with distributed_loads := lc.distributed_loads ++ [obj] }, c')

/-- Modelled from the spec: the `LimitState` enum (loads/enums.py is not
in the sources); only passed through here. -/
inductive LimitState where
  | uls
  | sls
  deriving Repr, DecidableEq, Inhabited

/-- `LoadCombination`: a pure mapping from LoadCase to factor.  The keys
are the resolved LoadCase objects (modelled by value; distinct cases
carry distinct ids). -/
structure LoadCombination where
  id : Nat
  name : String
  load_cases_factors : List (LoadCase × ℚ) := []
  situation : Option String := none
  check : String := "ALL"
  limit_state : Option LimitState := none
  deriving Repr, DecidableEq, Inhabited

/-- The parameter names of `LoadCombination.__init__` (besides `self`) —
note the absence of `id`: the id is always taken from the counter. -/
def loadCombinationInitParams : List String :=
  ["name", "load_cases_factors", "situation", "check", "limit_state"]

/-- `LoadCombination.__init__`: unconditional auto id from the counter. -/
def loadCombinationInit (c : Counters) (name : String := "Load Combination")
    (load_cases_factors : List (LoadCase × ℚ) := [])
    (situation : Option String := none) (check : String := "ALL")
    (limit_state : Option LimitState := none) : LoadCombination × Counters :=
  ({ id := c.loadcombination, name := name,
     load_cases_factors := load_cases_factors, situation := situation,
     check := check, limit_state := limit_state },
    { c with loadcombination := c.loadcombination + 1 })

/-- `LoadCombination._index_load_cases`: id → case and name → case maps. -/
def indexLoadCases (load_cases : List LoadCase) :
    List (Nat × LoadCase) × List (String × LoadCase) :=
  load_cases.foldl
    (fun (maps : List (Nat × LoadCase) × List (String × LoadCase)) lc =>
      (odInsert maps.1 lc.id lc, odInsert maps.2 lc.name lc))
    ([], [])

/-! ## The Model Aggregate (fers.py, class FERS) -/

/-- The `FERS` aggregate: member sets (by reference), owned load cases,
load combinations and imperfection cases (the latter opaque ids here). -/
structure FERS where
  member_sets : List Nat := []
  load_cases : List LoadCase := []
  load_combinations : List LoadCombination := []
  imperfection_cases : List Nat := []
  deriving Repr, DecidableEq, Inhabited

/-- `FERS.reset_counters`: calls `reset_counter()` on exactly the twelve
classes it names — ImperfectionCase, LoadCase, LoadCombination, Member,
MemberHinge, MemberSet, Node, NodalSupport, NodalLoad, Section, Material
and ShapePath.  `NodalMoment` and `DistributedLoad` are not among them,
so their counters are left untouched. -/
def resetCounters (c : Counters) : Counters :=
  { c with
    imperfectioncase := 1, loadcase := 1, loadcombination := 1,
    member := 1, memberhinge := 1, memberset := 1, node := 1,
    nodalsupport := 1, nodalload := 1, sectionCtr := 1, material := 1,
    shapepath := 1 }

/-- `FERS.__init__`: with `reset_counters=True` (the default) the twelve
counters named by `reset_counters` are reset to 1 as a side effect. -/
def fersInit (c : Counters) (reset_counters : Bool := true) : FERS × Counters :=
  ({}, if reset_counters then resetCounters c else c)

/-- `FERS.add_member_set`. -/
def FERS.addMemberSet (f : FERS) (msPtr : Nat) : FERS :=
  { f with member_sets := f.member_sets ++ [msPtr] }

/-- `FERS.get_all_member_sets`. -/
def FERS.getAllMemberSets (f : FERS) : List Nat := f.member_sets

/-- `FERS.get_all_members`: every member of every member set, first
occurrence per member id, in traversal order. -/
def FERS.getAllMembers (f : FERS) (h : Heap) : List Nat :=
  (f.member_sets.foldl (fun acc msPtr =>
    (h.memberSet msPtr).members.foldl
      (fun (acc : List Nat × List Nat) mp =>
        if (h.member mp).id ∈ acc.2 then acc
        else (acc.1 ++ [mp], acc.2 ++ [(h.member mp).id]))
      acc)
    ([], [])).1

/-- `FERS.get_all_nodes`: the start then end node of every member, first
occurrence per node id, in traversal order. -/
def FERS.getAllNodes (f : FERS) (h : Heap) : List Nat :=
  let step := fun (acc : List Nat × List Nat) (np : Nat) =>
    if (h.node np).id ∈ acc.2 then acc
    else (acc.1 ++ [np], acc.2 ++ [(h.node np).id])
  (f.member_sets.foldl (fun acc msPtr =>
    (h.memberSet msPtr).members.foldl
      (fun acc mp =>
        let m := h.member mp
        step (step acc m.start_node) m.end_node)
      acc)
    ([], [])).1

/-! ## Catalog extraction (fers.py) -/

/-- Modelled from the spec: `MemberSet.get_unique_materials`
(memberset.py is not in the sources): the materials of the members'
sections, deduplicated by identity, in member order. -/
def memberSetGetUniqueMaterials (h : Heap) (ms : MemberSet) : List Material :=
  odValues (ms.members.foldl
    (fun d mp =>
      match (h.member mp).sectionRef with
      | none => d
      | some sp =>
        let mat := h.materialAt (h.sectionAt sp).material
        odInsert d mat.id mat)
    [])

/-- Modelled from the spec: `MemberSet.get_unique_sections`. -/
def memberSetGetUniqueSections (h : Heap) (ms : MemberSet) : List Section :=
  odValues (ms.members.foldl
    (fun d mp =>
      match (h.member mp).sectionRef with
      | none => d
      | some sp =>
        let sec := h.sectionAt sp
        odInsert d sec.id sec)
    [])

/-- Modelled from the spec: `MemberSet.get_unique_memberhinges`: the
start then end hinge of each member, deduplicated by identity. -/
def memberSetGetUniqueMemberhinges (h : Heap) (ms : MemberSet) : List MemberHinge :=
  odValues (ms.members.foldl
    (fun d mp =>
      let m := h.member mp
      let d1 :=
        match m.start_hinge with
        | none => d
        | some hp => odInsert d (h.memberHinge hp).id (h.memberHinge hp)
      match m.end_hinge with
      | none => d1
      | some hp => odInsert d1 (h.memberHinge hp).id (h.memberHinge hp))
    [])

/-- `FERS.get_unique_materials_from_all_member_sets`: merges the per-set
material lists into one id-keyed dict and returns its values. -/
def FERS.getUniqueMaterialsFromAllMemberSets (f : FERS) (h : Heap) : List Material :=
  odValues (f.member_sets.foldl
    (fun d msPtr =>
      (memberSetGetUniqueMaterials h (h.memberSet msPtr)).foldl
        (fun d mat => odInsert d mat.id mat) d)
    [])

/-- `FERS.get_unique_sections_from_all_member_sets`. -/
def FERS.getUniqueSectionsFromAllMemberSets (f : FERS) (h : Heap) : List Section :=
  odValues (f.member_sets.foldl
    (fun d msPtr =>
      (memberSetGetUniqueSections h (h.memberSet msPtr)).foldl
        (fun d sec => odInsert d sec.id sec) d)
    [])

/-- `FERS.get_unique_member_hinges_from_all_member_sets`. -/
def FERS.getUniqueMemberHingesFromAllMemberSets (f : FERS) (h : Heap) :
    List MemberHinge :=
  odValues (f.member_sets.foldl
    (fun d msPtr =>
      (memberSetGetUniqueMemberhinges h (h.memberSet msPtr)).foldl
        (fun d hg => odInsert d hg.id hg) d)
    [])

/-- Python `d[k] = v` guarded by `if k not in d` (the pattern used for
shape paths and nodal supports): the first object wins. -/
def odSetIfAbsent {α β : Type} [DecidableEq α] (d : List (α × β)) (k : α) (v : β) :
    List (α × β) :=
  if odMem d k then d else d ++ [(k, v)]

/-- `FERS.get_unique_shape_paths_from_all_member_sets`: first shape path
per id, skipping members without a section or whose section has no
shape path. -/
def FERS.getUniqueShapePathsFromAllMemberSets (f : FERS) (h : Heap) :
    List ShapePath :=
  odValues (f.member_sets.foldl
    (fun d msPtr =>
      (h.memberSet msPtr).members.foldl
        (fun d mp =>
          match (h.member mp).sectionRef with
          | none => d
          | some sp =>
            match (h.sectionAt sp).shape_path with
            | none => d
            | some spp => odSetIfAbsent d (h.shapePath spp).id (h.shapePath spp))
        d)
    [])

/-- `FERS.get_unique_nodal_support_from_all_member_sets`: first support
per id over each member's start then end node. -/
def FERS.getUniqueNodalSupportFromAllMemberSets (f : FERS) (h : Heap) :
    List NodalSupport :=
  odValues (f.member_sets.foldl
    (fun d msPtr =>
      (h.memberSet msPtr).members.foldl
        (fun d mp =>
          let m := h.member mp
          [m.start_node, m.end_node].foldl
            (fun d np =>
              match (h.node np).nodal_support with
              | none => d
              | some supP => odSetIfAbsent d (h.nodalSupport supP).id (h.nodalSupport supP))
            d)
        d)
    [])

/-! ## Replication (`FERS.create_combined_model_pattern`) -/

/-- A spacing / coordinate triple. -/
structure Vec3 where
  x : ℚ
  y : ℚ
  z : ℚ
  deriving Repr, DecidableEq, Inhabited

/-- Keys of the `node_mapping` dict in `create_combined_model_pattern`:
the membership test `new_node_coords not in node_mapping` uses coordinate
triples while every insertion uses an `(original_node_id, replica_index)`
pair, so both key shapes occur in the same dict (and the test never
finds a coordinate key). -/
inductive PatKey where
  | coords (x y z : ℚ)
  | idIdx (nodeId i : Nat)
  deriving Repr, DecidableEq

/-- `node_mapping[(node_id, i)]`: a `KeyError` when absent. -/
def patLookup (mapping : List (PatKey × Nat)) (k : PatKey) : Except PyErr Nat :=
  match odGet? mapping k with
  | some v => .ok v
  | none => .error (.keyError "node_mapping")

/-- Replica indices `range(1, count)`. -/
def replicaIndices (count : Nat) : List Nat := List.range' 1 (count - 1)

/-- First replication pass: for every replica index and every node of the
original model, create a translated copy (sharing the nodal support) and
record it under `(original_node_id, index)`. -/
def patternNodesPhase (orig : FERS) (count : Nat) (spacing : Vec3)
    (st : List (PatKey × Nat) × Heap × Counters) :
    List (PatKey × Nat) × Heap × Counters :=
  (replicaIndices count).foldl
    (fun st (i : Nat) =>
      let tt : Vec3 := ⟨spacing.x * (i : ℚ), spacing.y * (i : ℚ), spacing.z * (i : ℚ)⟩
      (orig.getAllNodes st.2.1).foldl
        (fun (st : List (PatKey × Nat) × Heap × Counters) np =>
          let (mapping, h, c) := st
          let n := h.node np
          let coords : Vec3 := ⟨n.X + tt.x, n.Y + tt.y, n.Z + tt.z⟩
          if odMem mapping (.coords coords.x coords.y coords.z) then st
          else
            let (newP, h', c') :=
              nodeInit h c coords.x coords.y coords.z none n.classification
                n.nodal_support
            (odInsert mapping (.idIdx n.id i) newP, h', c'))
        st)
    st

/-- Second replication pass: rebuild every member of every member set for
every replica index, with endpoints (and reference node) taken from the
node mapping, the section and hinges shared, and `reference_member`
still pointing at the original (rebound in the third pass); collect the
replicas per original member in `member_mapping`. -/
def patternMembersPhase (sq : ℚ → ℚ) (orig : FERS) (count : Nat)
    (node_mapping : List (PatKey × Nat))
    (st : FERS × List (Nat × List Nat) × Heap × Counters) :
    Except PyErr (FERS × List (Nat × List Nat) × Heap × Counters) :=
  (replicaIndices count).foldlM
    (fun st i =>
      orig.getAllMemberSets.foldlM
        (fun (st : FERS × List (Nat × List Nat) × Heap × Counters) msPtr => do
          let (combined, member_mapping, h, c) := st
          let ms := h.memberSet msPtr
          let inner ← ms.members.foldlM
            (fun (acc : List Nat × List (Nat × List Nat) × Heap × Counters) mp => do
              let (new_members, member_mapping, h, c) := acc
              let m := h.member mp
              let new_start ← patLookup node_mapping (.idIdx (h.node m.start_node).id i)
              let new_end ← patLookup node_mapping (.idIdx (h.node m.end_node).id i)
              let new_ref_node ←
                match m.reference_node with
                | none => pure none
                | some rp => do
                  let p ← patLookup node_mapping (.idIdx (h.node rp).id i)
                  pure (some p)
              let (newMp, h', c') ←
                memberInit sq h c new_start new_end m.sectionRef none
                  m.start_hinge m.end_hinge m.classification m.rotation_angle
                  none m.chi m.reference_member new_ref_node .normal
              let mm :=
                if odMem member_mapping mp then member_mapping
                else odInsert member_mapping mp []
              let mm := odInsert mm mp ((odGet? mm mp).getD [] ++ [newMp])
              pure (new_members ++ [newMp], mm, h', c'))
            ([], member_mapping, h, c)
          let (new_members, member_mapping', h', c') := inner
          let (newMsPtr, h'', c'') :=
            memberSetInit h' c' new_members ms.classification ms.l_y ms.l_z
          pure (combined.addMemberSet newMsPtr, member_mapping', h'', c''))
        st)
    st

/-- Third pass: every replica whose `reference_member` is set (it still
points at the original member) is rebound to
`member_mapping.get(original_reference, [None])[0]` — the FIRST replica
of the referenced member, whatever the current replica's own index. -/
def patternRebindPhase (member_mapping : List (Nat × List Nat)) (h : Heap) :
    Except PyErr Heap :=
  member_mapping.foldlM
    (fun h entry =>
      entry.2.foldlM
        (fun (h : Heap) newPtr => do
          let m := h.member newPtr
          match m.reference_member with
          | none => pure h
          | some refPtr =>
            match odGet? member_mapping refPtr with
            | none => pure (h.setMember newPtr { m with reference_member := none })
            | some [] => throw (.indexError "list index out of range")
            | some (p :: _) =>
              pure (h.setMember newPtr { m with reference_member := some p }))
        h)
    h

/-- `FERS.create_combined_model_pattern`: a fresh aggregate (its default
construction resets all counters), the original member sets shared, then
the three replication passes. -/
def createCombinedModelPattern (sq : ℚ → ℚ) (h : Heap) (c : Counters)
    (original_model : FERS) (count : Nat) (spacing_vector : Vec3) :
    Except PyErr (FERS × Heap × Counters) := do
  let (combined0, c0) := fersInit c true
  let combined1 :=
    original_model.getAllMemberSets.foldl (fun f ms => f.addMemberSet ms) combined0
  let (node_mapping, h1, c1) :=
    patternNodesPhase original_model count spacing_vector ([], h, c0)
  let (combined2, member_mapping, h2, c2) ←
    patternMembersPhase sq original_model count node_mapping
      (combined1, [], h1, c1)
  let h3 ← patternRebindPhase member_mapping h2
  return (combined2, h3, c2)

/-! ## Translation (`FERS.translate_model`) -/

/-- `node_translation_map[node_id]`: a `KeyError` when absent. -/
def translationLookup (m : List (Nat × Nat)) (k : Nat) : Except PyErr Nat :=
  match odGet? m k with
  | some v => .ok v
  | none => .error (.keyError "node_translation_map")

/-- `FERS.translate_model`: a fresh aggregate (default construction, so
the named counters reset), one pass creating a translated copy of every
node (auto ids; no support or classification carried over) keyed by the
original node id, then a second pass rebuilding every member on the new
endpoints (sections, hinges and references shared); each new member set
keeps the original set's id. -/
def translateModel (sq : ℚ → ℚ) (h : Heap) (c : Counters) (model : FERS)
    (translation_vector : Vec3) : Except PyErr (FERS × Heap × Counters) := do
  let (new_model, c0) := fersInit c true
  let nodesPass :=
    (model.getAllNodes h).foldl
      (fun (st : List (Nat × Nat) × Heap × Counters) np =>
        let (m, h, c) := st
        let n := h.node np
        let (newP, h', c') :=
          nodeInit h c (n.X + translation_vector.x)
            (n.Y + translation_vector.y) (n.Z + translation_vector.z)
        (odInsert m n.id newP, h', c'))
      ([], h, c0)
  let (node_translation_map, h1, c1) := nodesPass
  model.getAllMemberSets.foldlM
    (fun (st : FERS × Heap × Counters) msPtr => do
      let (new_model, h, c) := st
      let ms := h.memberSet msPtr
      let inner ← ms.members.foldlM
        (fun (acc : List Nat × Heap × Counters) mp => do
          let (new_members, h, c) := acc
          let m := h.member mp
          let new_start ←
            translationLookup node_translation_map (h.node m.start_node).id
          let new_end ←
            translationLookup node_translation_map (h.node m.end_node).id
          let (newMp, h', c') ←
            memberInit sq h c new_start new_end m.sectionRef none m.start_hinge
              m.end_hinge m.classification m.rotation_angle none m.chi
              m.reference_member m.reference_node m.member_type
          pure (new_members ++ [newMp], h', c'))
        ([], h, c)
      let (new_members, h', c') := inner
      let (newMsPtr, h'', c'') :=
        memberSetInit h' c' new_members ms.classification none none (some ms.id)
      pure (new_model.addMemberSet newMsPtr, h'', c''))
    (new_model, h1, c1)

/-! ## Serialized documents

Typed records mirroring the dictionaries produced by the `to_dict`
methods.  Fields read through `data.get(...)` in the loaders are
`Option`s; `to_dict` always fills them.  The `member_type` and
`distribution_shape` strings are modelled by their enum (their string
codecs live in the enum modules, which round-trip by construction). -/

/-- `Node.to_dict` output. -/
structure NodeDoc where
  id : Option Nat
  classification : String
  X : ℚ
  Y : ℚ
  Z : ℚ
  nodal_support : Option Nat
  deriving Repr, DecidableEq, Inhabited

/-- `Member.to_dict` output: embedded endpoint node documents, catalog
references by id. -/
structure MemberDoc where
  id : Option Nat
  start_node : NodeDoc
  end_node : NodeDoc
  sectionId : Option Nat
  rotation_angle : ℚ
  start_hinge : Option Nat
  end_hinge : Option Nat
  classification : String
  weight : Option ℚ
  chi : Option ℚ
  reference_member : Option Nat
  reference_node : Option Nat
  member_type : MemberType
  deriving Repr, DecidableEq, Inhabited

/-- Modelled from the spec: `MemberSet.to_dict` output (memberset.py is
not in the sources): the set's id, its member records, classification
and design lengths. -/
structure MemberSetDoc where
  id : Option Nat
  members : List MemberDoc
  classification : String
  l_y : Option ℚ
  l_z : Option ℚ
  deriving Repr, DecidableEq, Inhabited

/-- `NodalLoad.to_dict` output. -/
structure NodalLoadDoc where
  id : Option Nat
  node : Option Nat
  load_case : Nat
  magnitude : ℚ
  direction : ℚ × ℚ × ℚ
  load_type : String
  deriving Repr, DecidableEq, Inhabited

/-- `NodalMoment.to_dict` output. -/
structure NodalMomentDoc where
  id : Option Nat
  node : Option Nat
  load_case : Nat
  magnitude : ℚ
  direction : ℚ × ℚ × ℚ
  deriving Repr, DecidableEq, Inhabited

/-- `DistributedLoad.to_dict` output. -/
structure DistributedLoadDoc where
  id : Option Nat
  member : Option Nat
  load_case : Nat
  distribution_shape : DistributionShape
  magnitude : ℚ
  direction : ℚ × ℚ × ℚ
  start_frac : ℚ
  end_frac : ℚ
  end_magnitude : Option ℚ
  deriving Repr, DecidableEq, Inhabited

/-- `LoadCase.to_dict` output; imperfections are serialized as bare ids. -/
structure LoadCaseDoc where
  id : Option Nat
  name : Option String
  nodal_loads : List NodalLoadDoc
  nodal_moments : List NodalMomentDoc
  distributed_loads : List DistributedLoadDoc
  rotation_imperfections : List Nat
  translation_imperfections : List Nat
  deriving Repr, DecidableEq, Inhabited

/-- Keys of a serialized `load_cases_factors` mapping: ints from
`to_dict`, strings after a JSON round trip or hand-written documents. -/
inductive PyKey where
  | int (n : Nat)
  | str (s : String)
  deriving Repr, DecidableEq, Inhabited

/-- `LoadCombination.to_dict` output. -/
structure LoadCombinationDoc where
  id : Option Nat
  name : Option String
  load_cases_factors : List (PyKey × ℚ)
  situation : Option String
  check : Option String
  limit_state : Option LimitState
  deriving Repr, DecidableEq, Inhabited

/-- `FERS.to_dict` output: relational records plus the deduplicated
catalog arrays.  Settings and results are irrelevant to every claim and
carried as opaque placeholders; the catalog entries are serialized as
the entities themselves (their `to_dict` is field-for-field). -/
structure ModelDoc where
  member_sets : List MemberSetDoc
  load_cases : List LoadCaseDoc
  load_combinations : List LoadCombinationDoc
  imperfection_cases : List Nat
  memberhinges : List MemberHinge
  materials : List Material
  sections : List Section
  nodal_supports : List NodalSupport
  shape_paths : List ShapePath
  deriving Repr, DecidableEq, Inhabited

/-! ## `to_dict` embeddings -/

/-- `Node.to_dict`: the nodal support is serialized as its id. -/
def nodeToDict (h : Heap) (np : Nat) : NodeDoc :=
  let n := h.node np
  { id := some n.id, classification := n.classification, X := n.X, Y := n.Y,
    Z := n.Z,
    nodal_support := n.nodal_support.map (fun sp => (h.nodalSupport sp).id) }

/-- `Member.to_dict`: embedded node documents, section/hinge/reference
links serialized as ids. -/
def memberToDict (h : Heap) (mp : Nat) : MemberDoc :=
  let m := h.member mp
  { id := some m.id,
    start_node := nodeToDict h m.start_node,
    end_node := nodeToDict h m.end_node,
    sectionId := m.sectionRef.map (fun sp => (h.sectionAt sp).id),
    rotation_angle := m.rotation_angle,
    start_hinge := m.start_hinge.map (fun hp => (h.memberHinge hp).id),
    end_hinge := m.end_hinge.map (fun hp => (h.memberHinge hp).id),
    classification := m.classification,
    weight := some m.weight,
    chi := m.chi,
    reference_member := m.reference_member.map (fun rp => (h.member rp).id),
    reference_node := m.reference_node.map (fun rp => (h.node rp).id),
    member_type := m.member_type }

/-- Modelled from the spec: `MemberSet.to_dict`. -/
def memberSetToDict (h : Heap) (msPtr : Nat) : MemberSetDoc :=
  let ms := h.memberSet msPtr
  { id := some ms.id, members := ms.members.map (memberToDict h),
    classification := ms.classification, l_y := ms.l_y, l_z := ms.l_z }

/-- `NodalLoad.to_dict`. -/
def nodalLoadToDict (h : Heap) (nl : NodalLoad) : NodalLoadDoc :=
  { id := some nl.id, node := some (h.node nl.node).id,
    load_case := nl.load_case, magnitude := nl.magnitude,
    direction := nl.direction, load_type := nl.load_type }

/-- `NodalMoment.to_dict`. -/
def nodalMomentToDict (h : Heap) (nm : NodalMoment) : NodalMomentDoc :=
  { id := some nm.id, node := some (h.node nm.node).id,
    load_case := nm.load_case, magnitude := nm.magnitude,
    direction := nm.direction }

/-- `DistributedLoad.to_dict`. -/
def distributedLoadToDict (h : Heap) (dl : DistributedLoad) : DistributedLoadDoc :=
  { id := some dl.id, member := some (h.member dl.member).id,
    load_case := dl.load_case, distribution_shape := dl.distribution_shape,
    magnitude := dl.magnitude, direction := dl.direction,
    start_frac := dl.start_frac, end_frac := dl.end_frac,
    end_magnitude := some dl.end_magnitude }

/-- `LoadCase.to_dict`. -/
def loadCaseToDict (h : Heap) (lc : LoadCase) : LoadCaseDoc :=
  { id := some lc.id, name := some lc.name,
    nodal_loads := lc.nodal_loads.map (nodalLoadToDict h),
    nodal_moments := lc.nodal_moments.map (nodalMomentToDict h),
    distributed_loads := lc.distributed_loads.map (distributedLoadToDict h),
    rotation_imperfections := lc.rotation_imperfections,
    translation_imperfections := lc.translation_imperfections }

/-- `LoadCombination.to_dict`: factors keyed by the load cases' ids. -/
def loadCombinationToDict (comb : LoadCombination) : LoadCombinationDoc :=
  { id := some comb.id, name := some comb.name,
    load_cases_factors :=
      comb.load_cases_factors.map (fun p => (PyKey.int p.1.id, p.2)),
    situation := comb.situation, check := some comb.check,
    limit_state := comb.limit_state }

/-- `Section.to_dict`: field-for-field, with the material and shape path
serialized as ids (the record shape coincides with the runtime one, so
the same structure carries the document). -/
def sectionToDict (h : Heap) (sec : Section) : Section :=
  { sec with
    material := (h.materialAt sec.material).id,
    shape_path := sec.shape_path.map (fun p => (h.shapePath p).id) }

/-- `FERS.to_dict`: relational arrays plus the unique catalogs. -/
def fersToDict (h : Heap) (f : FERS) : ModelDoc :=
  { member_sets := f.member_sets.map (memberSetToDict h),
    load_cases := f.load_cases.map (loadCaseToDict h),
    load_combinations := f.load_combinations.map loadCombinationToDict,
    imperfection_cases := f.imperfection_cases,
    memberhinges := f.getUniqueMemberHingesFromAllMemberSets h,
    materials := f.getUniqueMaterialsFromAllMemberSets h,
    sections := (f.getUniqueSectionsFromAllMemberSets h).map (sectionToDict h),
    nodal_supports := f.getUniqueNodalSupportFromAllMemberSets h,
    shape_paths := f.getUniqueShapePathsFromAllMemberSets h }

/-! ## `from_dict` embeddings -/

/-- Python truthiness of an optional integer (used by the
`data.get("node") or data.get("node_id")` pattern): `None` and `0` are
falsy. -/
def truthyId (v : Option Nat) : Option Nat :=
  match v with
  | none => none
  | some n => if n = 0 then none else some n

/-- `Node.from_dict`: resolve the support id through the shared-instance
map (when both are present), then construct. -/
def nodeFromDict (h : Heap) (c : Counters) (data : NodeDoc)
    (nodal_supports_by_id : Option (List (Nat × Nat))) : Nat × Heap × Counters :=
  let support :=
    match nodal_supports_by_id, data.nodal_support with
    | some m, some sid => odGet? m sid
    | _, _ => none
  nodeInit h c data.X data.Y data.Z data.id data.classification support

/-- `Node.get_or_create_from_dict` (dict branch): reuse the instance
registered under the document's id, otherwise construct via `from_dict`
and register the new instance (`setdefault`). -/
def nodeGetOrCreateFromDict (h : Heap) (c : Counters) (data : NodeDoc)
    (nodes_by_id : List (Nat × Nat)) (nodal_supports_by_id : Option (List (Nat × Nat))) :
    Nat × List (Nat × Nat) × Heap × Counters :=
  match data.id with
  | some nid =>
    match odGet? nodes_by_id nid with
    | some p => (p, nodes_by_id, h, c)
    | none =>
      let (p, h', c') := nodeFromDict h c data nodal_supports_by_id
      (p, odSetIfAbsent nodes_by_id (h'.node p).id p, h', c')
  | none =>
    let (p, h', c') := nodeFromDict h c data nodal_supports_by_id
    (p, odSetIfAbsent nodes_by_id (h'.node p).id p, h', c')

/-- `Member.from_dict`: endpoints through the node get-or-create map,
section/hinges/references resolved against the per-kind id → instance
maps (a miss yields `None`, not an error), then construction; the new
member is registered under its document id. -/
def memberFromDict (sq : ℚ → ℚ) (h : Heap) (c : Counters) (data : MemberDoc)
    (nodes_by_id : List (Nat × Nat))
    (nodal_supports_by_id : Option (List (Nat × Nat)))
    (sections_by_id hinges_by_id members_by_id : List (Nat × Nat)) :
    Except PyErr (Nat × List (Nat × Nat) × List (Nat × Nat) × Heap × Counters) := do
  let (start_node, nodes1, h1, c1) :=
    nodeGetOrCreateFromDict h c data.start_node nodes_by_id nodal_supports_by_id
  let (end_node, nodes2, h2, c2) :=
    nodeGetOrCreateFromDict h1 c1 data.end_node nodes1 nodal_supports_by_id
  let sectionRef :=
    match data.sectionId with
    | none => none
    | some sid => odGet? sections_by_id sid
  let start_hinge :=
    match data.start_hinge with
    | none => none
    | some hid => odGet? hinges_by_id hid
  let end_hinge :=
    match data.end_hinge with
    | none => none
    | some hid => odGet? hinges_by_id hid
  let reference_member :=
    match data.reference_member with
    | none => none
    | some rid => odGet? members_by_id rid
  let reference_node :=
    match data.reference_node with
    | none => none
    | some rid => odGet? nodes2 rid
  let (p, h3, c3) ←
    memberInit sq h2 c2 start_node end_node sectionRef data.id start_hinge
      end_hinge data.classification data.rotation_angle data.weight data.chi
      reference_member reference_node data.member_type
  let members' :=
    match data.id with
    | some mid => odSetIfAbsent members_by_id mid p
    | none => members_by_id
  return (p, nodes2, members', h3, c3)

/-- Modelled from the spec: `MemberSet.from_dict` (memberset.py is not
in the sources): rebuild the member records through `Member.from_dict`
so every catalog reference resolves to the already-constructed shared
instance, then construct the set with its document id. -/
def memberSetFromDict (sq : ℚ → ℚ) (h : Heap) (c : Counters) (data : MemberSetDoc)
    (nodes_by_id : List (Nat × Nat))
    (nodal_supports_by_id : Option (List (Nat × Nat)))
    (sections_by_id hinges_by_id members_by_id : List (Nat × Nat)) :
    Except PyErr (Nat × List (Nat × Nat) × List (Nat × Nat) × Heap × Counters) := do
  let inner ← data.members.foldlM
    (fun (acc : List Nat × List (Nat × Nat) × List (Nat × Nat) × Heap × Counters)
        mdoc => do
      let (ptrs, nodes, members, h, c) := acc
      let (p, nodes', members', h', c') ←
        memberFromDict sq h c mdoc nodes nodal_supports_by_id sections_by_id
          hinges_by_id members
      pure (ptrs ++ [p], nodes', members', h', c'))
    ([], nodes_by_id, members_by_id, h, c)
  let (ptrs, nodes', members', h', c') := inner
  let (msPtr, h'', c'') :=
    memberSetInit h' c' ptrs data.classification data.l_y data.l_z data.id
  return (msPtr, nodes', members', h'', c'')

/-- `NodalLoad.from_dict`: resolve the node (missing id is a
`ValueError`, unresolvable id a `KeyError`), construct — which
self-registers with the case — then overwrite the id from the document
(the registered entry is the same object) and advance the counter past
it. -/
def nodalLoadFromDict (c : Counters) (data : NodalLoadDoc)
    (nodes : List (Nat × Nat)) (lc : LoadCase) :
    Except PyErr (NodalLoad × LoadCase × Counters) := do
  let node_id ←
    match truthyId data.node with
    | none => throw (.valueError "NodalLoad.from_dict: node (id) is required.")
    | some nid => pure nid
  let nptr ←
    match odGet? nodes node_id with
    | none => throw (.keyError s!"NodalLoad.from_dict: Node with id={node_id} not found.")
    | some p => pure p
  let (obj, lc1, c1) :=
    nodalLoadInit c nptr lc data.magnitude data.direction data.load_type
  match data.id with
  | none => return (obj, lc1, c1)
  | some lid =>
    let obj' := { obj with id := lid }
    let lc2 := { lc1 with nodal_loads := lc.nodal_loads ++ [obj'] }
    let c2 :=
      if lid ≥ c1.nodalload then { c1 with nodalload := lid + 1 } else c1
    return (obj', lc2, c2)

/-- `NodalMoment.from_dict`: same shape as `NodalLoad.from_dict`. -/
def nodalMomentFromDict (c : Counters) (data : NodalMomentDoc)
    (nodes : List (Nat × Nat)) (lc : LoadCase) :
    Except PyErr (NodalMoment × LoadCase × Counters) := do
  let node_id ←
    match truthyId data.node with
    | none => throw (.valueError "NodalMoment.from_dict: node (id) is required.")
    | some nid => pure nid
  let nptr ←
    match odGet? nodes node_id with
    | none => throw (.keyError s!"NodalMoment.from_dict: Node with id={node_id} not found.")
    | some p => pure p
  let (obj, lc1, c1) := nodalMomentInit c nptr lc data.magnitude data.direction
  match data.id with
  | none => return (obj, lc1, c1)
  | some lid =>
    let obj' := { obj with id := lid }
    let lc2 := { lc1 with nodal_moments := lc.nodal_moments ++ [obj'] }
    let c2 :=
      if lid ≥ c1.nodalmoment then { c1 with nodalmoment := lid + 1 } else c1
    return (obj', lc2, c2)

/-- `DistributedLoad.from_dict`: resolve the member, construct with the
document id (which self-registers with the case), then advance the
counter past an explicit id. -/
def distributedLoadFromDict (c : Counters) (data : DistributedLoadDoc)
    (members : List (Nat × Nat)) (lc : LoadCase) :
    Except PyErr (DistributedLoad × LoadCase × Counters) := do
  let member_id ←
    match truthyId data.member with
    | none => throw (.valueError "DistributedLoad.from_dict: member (id) is required.")
    | some mid => pure mid
  let mptr ←
    match odGet? members member_id with
    | none =>
      throw (.keyError s!"DistributedLoad.from_dict: Member with id={member_id} not found.")
    | some p => pure p
  let (obj, lc1, c1) ←
    distributedLoadInit c mptr lc data.distribution_shape data.magnitude
      data.direction data.start_frac data.end_frac data.end_magnitude data.id
  let c2 :=
    match data.id with
    | some lid =>
      if lid ≥ c1.distributedload then { c1 with distributedload := lid + 1 } else c1
    | none => c1
  return (obj, lc1, c2)

/-- One iteration of the nodal-load loop in `LoadCase.from_dict`:
rebuild the load (its constructor already appended it to the case), then
`load_case.add_nodal_load(nl)` appends it once more. -/
def loadCaseNodalLoadStep (nodes : List (Nat × Nat)) (acc : LoadCase × Counters)
    (nlDoc : NodalLoadDoc) : Except PyErr (LoadCase × Counters) := do
  let (lc, c) := acc
  let (nl, lc', c') ← nodalLoadFromDict c nlDoc nodes lc
  pure ({ lc' with nodal_loads := lc'.nodal_loads ++ [nl] }, c')

/-- One iteration of the nodal-moment loop in `LoadCase.from_dict`. -/
def loadCaseNodalMomentStep (nodes : List (Nat × Nat)) (acc : LoadCase × Counters)
    (nmDoc : NodalMomentDoc) : Except PyErr (LoadCase × Counters) := do
  let (lc, c) := acc
  let (nm, lc', c') ← nodalMomentFromDict c nmDoc nodes lc
  pure ({ lc' with nodal_moments := lc'.nodal_moments ++ [nm] }, c')

/-- One iteration of the distributed-load loop in `LoadCase.from_dict`. -/
def loadCaseDistributedLoadStep (members : List (Nat × Nat))
    (acc : LoadCase × Counters) (dlDoc : DistributedLoadDoc) :
    Except PyErr (LoadCase × Counters) := do
  let (lc, c) := acc
  let (dl, lc', c') ← distributedLoadFromDict c dlDoc members lc
  pure ({ lc' with distributed_loads := lc'.distributed_loads ++ [dl] }, c')

/-- `LoadCase.from_dict`: build the base case (advancing the counter
past an explicit id), then run the three load loops — each constructs a
load via its `from_dict` (whose constructor already appended it to the
case) and appends it to the case again; imperfection entries that are
bare ids are kept as references. -/
def loadCaseFromDict (c : Counters) (data : LoadCaseDoc)
    (nodes members : List (Nat × Nat)) : Except PyErr (LoadCase × Counters) := do
  let (lc0, c1) := loadCaseInit c data.name data.id
  let c2 :=
    match data.id with
    | some lid => if lid ≥ c1.loadcase then { c1 with loadcase := lid + 1 } else c1
    | none => c1
  let st1 ← data.nodal_loads.foldlM (loadCaseNodalLoadStep nodes) (lc0, c2)
  let st2 ← data.nodal_moments.foldlM (loadCaseNodalMomentStep nodes) st1
  let st3 ← data.distributed_loads.foldlM (loadCaseDistributedLoadStep members) st2
  let (lc4, c4) := st3
  let lc5 :=
    { lc4 with
      rotation_imperfections := lc4.rotation_imperfections ++ data.rotation_imperfections,
      translation_imperfections :=
        lc4.translation_imperfections ++ data.translation_imperfections }
  return (lc5, c4)

/-- Python `str.isdigit` on the strings occurring here. -/
def pyStrIsDigit (s : String) : Bool :=
  s ≠ "" && s.toList.all Char.isDigit

/-- Python `str(key)` for a factor-mapping key. -/
def pyKeyStr : PyKey → String
  | .int n => toString n
  | .str s => s

/-- The keyword arguments `LoadCombination.from_dict` passes to the
constructor — including `id`, which `__init__` does not accept. -/
def loadCombinationFromDictKwargs : List String :=
  ["id", "name", "load_cases_factors", "situation", "check", "limit_state"]

/-- `LoadCombination.from_dict`: resolve every factor key (id first —
ints and digit strings — then name as fallback; an unmatched key is a
`KeyError`), then call the constructor with the document's keyword
arguments; since `id` is not an `__init__` parameter, that call raises
`TypeError` before the constructor body runs. -/
def loadCombinationFromDict (c : Counters) (data : LoadCombinationDoc)
    (load_cases : List LoadCase) : Except PyErr (LoadCombination × Counters) := do
  let maps := indexLoadCases load_cases
  let by_id := maps.1
  let by_name := maps.2
  let factors ← data.load_cases_factors.foldlM
    (fun (acc : List (LoadCase × ℚ)) kv => do
      let (key, factor) := kv
      let viaId : Option LoadCase :=
        match key with
        | .int n => odGet? by_id n
        | .str s => if pyStrIsDigit s then odGet? by_id (s.toNat?.getD 0) else none
      let lc? :=
        match viaId with
        | some lc => some lc
        | none => odGet? by_name (pyKeyStr key)
      match lc? with
      | none =>
        throw (.keyError ("LoadCombination.from_dict: cannot resolve load case reference " ++
          pyKeyStr key))
      | some lc => pure (odInsert acc lc factor))
    []
  let limit_state := data.limit_state
  match loadCombinationFromDictKwargs.find? (fun k => ¬ k ∈ loadCombinationInitParams) with
  | some kw =>
    throw (.typeError ("__init__() got an unexpected keyword argument " ++ kw))
  | none =>
    let (obj, c') :=
      loadCombinationInit c (data.name.getD "") factors data.situation
        (data.check.getD "ALL") limit_state
    return (obj, c')

/-- Modelled from the spec: `FERS.from_dict` (no aggregate-level loader
exists in the sources; `LoadCase.from_dict` documents that its lookup
maps are "provided by FERS.from_dict").  Per the serialization contract:
build the catalogs first, registering every instance in a per-kind
id → instance map, then rebuild the member sets resolving every
reference through those maps, then the load cases (via
`LoadCase.from_dict`) and the load combinations (via
`LoadCombination.from_dict`). -/
def fersFromDict (sq : ℚ → ℚ) (h : Heap) (c : Counters) (doc : ModelDoc) :
    Except PyErr (FERS × Heap × Counters) := do
  let (supports_by_id, h1) := doc.nodal_supports.foldl
    (fun (acc : List (Nat × Nat) × Heap) sup =>
      (odSetIfAbsent acc.1 sup.id acc.2.nodalSupports.length,
        { acc.2 with nodalSupports := acc.2.nodalSupports ++ [sup] }))
    ([], h)
  let (materials_by_id, h2) := doc.materials.foldl
    (fun (acc : List (Nat × Nat) × Heap) mat =>
      (odSetIfAbsent acc.1 mat.id acc.2.materials.length,
        { acc.2 with materials := acc.2.materials ++ [mat] }))
    ([], h1)
  let (shape_paths_by_id, h3) := doc.shape_paths.foldl
    (fun (acc : List (Nat × Nat) × Heap) sp =>
      (odSetIfAbsent acc.1 sp.id acc.2.shapePaths.length,
        { acc.2 with shapePaths := acc.2.shapePaths ++ [sp] }))
    ([], h2)
  let (sections_by_id, h4) := doc.sections.foldl
    (fun (acc : List (Nat × Nat) × Heap) sec =>
      let sec' :=
        { sec with
          material := (odGet? materials_by_id sec.material).getD 0,
          shape_path := sec.shape_path.bind (odGet? shape_paths_by_id) }
      (odSetIfAbsent acc.1 sec.id acc.2.sections.length,
        { acc.2 with sections := acc.2.sections ++ [sec'] }))
    ([], h3)
  let (hinges_by_id, h5) := doc.memberhinges.foldl
    (fun (acc : List (Nat × Nat) × Heap) hg =>
      (odSetIfAbsent acc.1 hg.id acc.2.memberHinges.length,
        { acc.2 with memberHinges := acc.2.memberHinges ++ [hg] }))
    ([], h4)
  let msSt ← doc.member_sets.foldlM
    (fun (acc : List Nat × List (Nat × Nat) × List (Nat × Nat) × Heap × Counters)
        msDoc => do
      let (ptrs, nodes, members, h, c) := acc
      let (msPtr, nodes', members', h', c') ←
        memberSetFromDict sq h c msDoc nodes (some supports_by_id) sections_by_id
          hinges_by_id members
      pure (ptrs ++ [msPtr], nodes', members', h', c'))
    ([], [], [], h5, c)
  let (msPtrs, nodes_by_id, members_by_id, h6, c6) := msSt
  let lcSt ← doc.load_cases.foldlM
    (fun (acc : List LoadCase × Counters) lcDoc => do
      let (cases, c) := acc
      let (lc, c') ← loadCaseFromDict c lcDoc nodes_by_id members_by_id
      pure (cases ++ [lc], c'))
    ([], c6)
  let (cases, c7) := lcSt
  let combSt ← doc.load_combinations.foldlM
    (fun (acc : List LoadCombination × Counters) combDoc => do
      let (combs, c) := acc
      let (comb, c') ← loadCombinationFromDict c combDoc cases
      pure (combs ++ [comb], c'))
    ([], c7)
  let (combs, c8) := combSt
  return ({ member_sets := msPtrs, load_cases := cases, load_combinations := combs,
            imperfection_cases := doc.imperfection_cases }, h6, c8)

/-! ## Concrete scenarios used by the theorems -/

/-- A two-member chain: member A (ptr 0) from node 1 to node 2, member B
(ptr 1) from node 2 to node 3 with `reference_member` pointing at A, one
member set, one shared section.  Returns the heap, the counters and the
model. -/
def replicationScenario : Heap × Counters × FERS :=
  let (f0, c) := fersInit initialCounters true
  let (matP, h, c) := materialInit {} c "steel" 210 81 7850 235
  let (secP, h, c) := sectionInit h c "sec" matP 1 1 1 1
  let (n0, h, c) := nodeInit h c 0 0 0
  let (n1, h, c) := nodeInit h c 1 0 0
  let (n2, h, c) := nodeInit h c 2 0 0
  match memberInit (fun q => q) h c n0 n1 (some secP) with
  | .error _ => (h, c, f0)
  | .ok (a, h, c) =>
    match memberInit (fun q => q) h c n1 n2 (some secP) none none none "" 0
        none none (some a) none .normal with
    | .error _ => (h, c, f0)
    | .ok (b, h, c) =>
      let (msP, h, c) := memberSetInit h c [a, b]
      (h, c, f0.addMemberSet msP)

/-- A one-member cantilever (nodes with ids 1 and 2, one member) used for
the id-collision scenario. -/
def collisionScenario : Heap × Counters × FERS :=
  let (f0, c) := fersInit initialCounters true
  let (matP, h, c) := materialInit {} c "steel" 210 81 7850 235
  let (secP, h, c) := sectionInit h c "sec" matP 1 1 1 1
  let (n0, h, c) := nodeInit h c 0 0 0
  let (n1, h, c) := nodeInit h c 1 0 0
  match memberInit (fun q => q) h c n0 n1 (some secP) with
  | .error _ => (h, c, f0)
  | .ok (a, h, c) =>
    let (msP, h, c) := memberSetInit h c [a]
    (h, c, f0.addMemberSet msP)

/-- A model with one Rigid member (so no catalog entities) and one load
case owning a single nodal load, used for the round-trip scenario. -/
def roundTripScenario : Heap × Counters × FERS :=
  let (f0, c) := fersInit initialCounters true
  let (n0, h, c) := nodeInit {} c 0 0 0
  let (n1, h, c) := nodeInit h c 1 0 0
  match memberInit (fun q => q) h c n0 n1 none none none none "" 0 none none
      none none .rigid with
  | .error _ => (h, c, f0)
  | .ok (a, h, c) =>
    let (msP, h, c) := memberSetInit h c [a]
    let (lc0, c) := loadCaseInit c (some "LC") none
    let (_nl, lc1, c) := nodalLoadInit c n1 lc0 (-1000) (0, 1, 0)
    (h, c, { f0.addMemberSet msP with load_cases := [lc1] })

/-- Two members sharing one section object, used as the catalog witness. -/
def sharedSectionScenario : Heap × Counters × FERS :=
  let (f0, c) := fersInit initialCounters true
  let (matP, h, c) := materialInit {} c "steel" 210 81 7850 235
  let (secP, h, c) := sectionInit h c "sec" matP 1 1 1 1
  let (n0, h, c) := nodeInit h c 0 0 0
  let (n1, h, c) := nodeInit h c 1 0 0
  let (n2, h, c) := nodeInit h c 2 0 0
  match memberInit (fun q => q) h c n0 n1 (some secP) with
  | .error _ => (h, c, f0)
  | .ok (a, h, c) =>
    match memberInit (fun q => q) h c n1 n2 (some secP) with
    | .error _ => (h, c, f0)
    | .ok (b, h, c) =>
      let (msP, h, c) := memberSetInit h c [a, b]
      (h, c, f0.addMemberSet msP)

/-- Loading three nodes with explicit ids 3, 7 and 12 into a fresh
session, then one auto-assigned node: the four construction steps. -/
def explicitIdStep1 : Nat × Heap × Counters :=
  nodeInit {} initialCounters 0 0 0 (some 3)

def explicitIdStep2 : Nat × Heap × Counters :=
  nodeInit explicitIdStep1.2.1 explicitIdStep1.2.2 1 0 0 (some 7)

def explicitIdStep3 : Nat × Heap × Counters :=
  nodeInit explicitIdStep2.2.1 explicitIdStep2.2.2 2 0 0 (some 12)

def explicitIdStep4 : Nat × Heap × Counters :=
  nodeInit explicitIdStep3.2.1 explicitIdStep3.2.2 3 0 0 none

/-- The result of replicating `replicationScenario` with `count = 3`. -/
def replicationResult : FERS × Heap × Counters :=
  (createCombinedModelPattern (fun q => q) replicationScenario.1
    replicationScenario.2.1 replicationScenario.2.2 3 ⟨5, 0, 0⟩).toOption.getD default

/-- The result of replicating `collisionScenario` with `count = 2`. -/
def collisionResult : FERS × Heap × Counters :=
  (createCombinedModelPattern (fun q => q) collisionScenario.1
    collisionScenario.2.1 collisionScenario.2.2 2 ⟨5, 0, 0⟩).toOption.getD default

/-- The result of translating `collisionScenario` by (5, 0, 0). -/
def translateResult : FERS × Heap × Counters :=
  (translateModel (fun q => q) collisionScenario.1 collisionScenario.2.1
    collisionScenario.2.2 ⟨5, 0, 0⟩).toOption.getD default

/-- The result of deserializing the serialized `roundTripScenario`. -/
def roundTripResult : FERS × Heap × Counters :=
  (fersFromDict (fun q => q) roundTripScenario.1 roundTripScenario.2.1
    (fersToDict roundTripScenario.1 roundTripScenario.2.2)).toOption.getD default


/-- A serialized nodal load used by the duplication witness. -/
def dupNodalLoadDoc : NodalLoadDoc :=
  { id := some 1, node := some 2, load_case := 1, magnitude := -1000,
    direction := (0, 1, 0), load_type := "force" }

/-- A serialized distributed load used by the duplication witness. -/
def dupDistributedLoadDoc : DistributedLoadDoc :=
  { id := some 1, member := some 1, load_case := 1,
    distribution_shape := .uniform, magnitude := 5, direction := (0, -1, 0),
    start_frac := 0, end_frac := 1, end_magnitude := some 5 }

/-- A serialized load case carrying one nodal load and one distributed
load, used as the duplication witness. -/
def loadCaseDupDoc : LoadCaseDoc :=
  { id := some 1, name := some "LC",
    nodal_loads := [dupNodalLoadDoc],
    nodal_moments := [],
    distributed_loads := [dupDistributedLoadDoc],
    rotation_imperfections := [], translation_imperfections := [] }

/-- The load case rebuilt from `loadCaseDupDoc` (nodes map: node id 2 at
pointer 0; members map: member id 1 at pointer 0). -/
def loadCaseDupResult : LoadCase × Counters :=
  (loadCaseFromDict initialCounters loadCaseDupDoc [(2, 0)] [(1, 0)]).toOption.getD default

/-! ## Theorems -/

/-- C4: constructing a `NodalSupport` without displacement or rotation
conditions is claimed to succeed with all six conditions Fixed; in the
code the very first line of `__init__` evaluates `SupportCondition.FIXED`,
which is not an attribute of `SupportCondition` (the enum member lives on
`SupportConditionType`), so every construction — with or without
conditions — raises `AttributeError` instead. -/
theorem nodalSupport_default_construction_raises (c : Counters)
    (idOpt : Option Nat) (classification : Option String)
    (disp rot : Option (List (String × SupportCondition))) :
    nodalSupportInit c idOpt classification disp rot =
      .error (.attributeError "SupportCondition" "FIXED") := rfl

/-- C3: replicating the two-member chain (B's `reference_member` = A)
with `count = 3` produces members at heap pointers 2..5 — pointer 2 the
index-1 replica of A, pointer 3 the index-1 replica of B, pointer 4 the
index-2 replica of A, pointer 5 the index-2 replica of B.  The index-2
replica of B ends up referencing pointer 2, the index-1 replica of A,
not pointer 4, its own index's replica — the rebinding pass always takes
the first element of the replica list. -/
theorem pattern_rebinds_reference_to_first_replica :
    (createCombinedModelPattern (fun q => q) replicationScenario.1
        replicationScenario.2.1 replicationScenario.2.2 3 ⟨5, 0, 0⟩).toOption =
      some replicationResult ∧
    (replicationResult.2.1.member 2).id = 1 ∧
    (replicationResult.2.1.member 3).id = 2 ∧
    (replicationResult.2.1.member 4).id = 3 ∧
    (replicationResult.2.1.member 5).id = 4 ∧
    (replicationResult.2.1.member 3).reference_member = some 2 ∧
    (replicationResult.2.1.member 5).reference_member = some 2 ∧
    (replicationResult.2.1.member 5).reference_member ≠ some 4 ∧
    replicationResult.1.member_sets = [0, 1, 2] ∧
    (replicationResult.2.1.memberSet 2).members = [4, 5] :=
  ⟨rfl, rfl, rfl, rfl, rfl, rfl, rfl,
    (by decide : (some 2 : Option Nat) ≠ some 4), rfl, rfl⟩

/-- C9 counterexample: with the NodalMoment counter at 5 and the
DistributedLoad counter at 7, default `FERS()` construction leaves both
untouched — `FERS.reset_counters` calls `reset_counter()` on twelve
classes and `NodalMoment` and `DistributedLoad` are not among them — so
it does not reset every entity kind's id counter to 1. -/
theorem default_init_skips_moment_and_distributed_counters :
    (fersInit { initialCounters with nodalmoment := 5, distributedload := 7 }
      true).2.nodalmoment = 5 ∧
    (fersInit { initialCounters with nodalmoment := 5, distributedload := 7 }
      true).2.distributedload = 7 ∧
    (fersInit { initialCounters with nodalmoment := 5, distributedload := 7 }
      true).2 ≠ initialCounters :=
  ⟨rfl, rfl, by decide⟩

/-- C9 amended: constructing a `FERS` aggregate with default arguments
resets exactly the twelve counters named by `reset_counters` to 1
(`NodalMoment`'s and `DistributedLoad`'s are left untouched); both
`create_combined_model_pattern` and `translate_model` build their result
with such a default construction, so the node counter restarts at 1 and
the copies' nodes receive auto-assigned ids equal to the original nodes'
ids: in both results the original start node (heap pointer 0) and its
copy (heap pointer 2) are distinct objects carrying the same id 1. -/
theorem default_init_resets_named_counters_and_copy_ids_restart :
    (∀ c : Counters, (fersInit c true).2 = resetCounters c) ∧
    (∀ c : Counters,
      (resetCounters c).imperfectioncase = 1 ∧ (resetCounters c).loadcase = 1 ∧
      (resetCounters c).loadcombination = 1 ∧ (resetCounters c).member = 1 ∧
      (resetCounters c).memberhinge = 1 ∧ (resetCounters c).memberset = 1 ∧
      (resetCounters c).node = 1 ∧ (resetCounters c).nodalsupport = 1 ∧
      (resetCounters c).nodalload = 1 ∧ (resetCounters c).sectionCtr = 1 ∧
      (resetCounters c).material = 1 ∧ (resetCounters c).shapepath = 1 ∧
      (resetCounters c).nodalmoment = c.nodalmoment ∧
      (resetCounters c).distributedload = c.distributedload) ∧
    (createCombinedModelPattern (fun q => q) collisionScenario.1
        collisionScenario.2.1 collisionScenario.2.2 2 ⟨5, 0, 0⟩).toOption =
      some collisionResult ∧
    (collisionResult.2.1.node 0).id = 1 ∧
    (collisionResult.2.1.node 2).id = 1 ∧
    (collisionResult.2.1.member 0).start_node = 0 ∧
    (collisionResult.2.1.member 1).start_node = 2 ∧
    collisionResult.1.member_sets = [0, 1] ∧
    (collisionResult.2.1.memberSet 0).members = [0] ∧
    (collisionResult.2.1.memberSet 1).members = [1] ∧
    collisionResult.2.1.nodes.length = 4 ∧
    (translateModel (fun q => q) collisionScenario.1 collisionScenario.2.1
        collisionScenario.2.2 ⟨5, 0, 0⟩).toOption = some translateResult ∧
    (translateResult.2.1.node 0).id = 1 ∧
    (translateResult.2.1.node 2).id = 1 ∧
    (translateResult.2.1.member 0).start_node = 0 ∧
    (translateResult.2.1.member 1).start_node = 2 ∧
    translateResult.1.member_sets = [1] ∧
    (translateResult.2.1.memberSet 1).members = [1] ∧
    translateResult.2.1.nodes.length = 4 :=
  ⟨fun _ => rfl,
    fun _ => ⟨rfl, rfl, rfl, rfl, rfl, rfl, rfl, rfl, rfl, rfl, rfl, rfl, rfl, rfl⟩,
    rfl, rfl, rfl, rfl, rfl, rfl, rfl, rfl, rfl, rfl, rfl, rfl, rfl, rfl, rfl, rfl, rfl⟩

/-- C1: the round trip at the Model Aggregate level does not preserve
the entity count per kind: deserializing the serialized one-load model
yields a load case whose `nodal_loads` list holds the single load twice
(once appended by the load constructor's self-registration, once more by
`LoadCase.from_dict`), so the restored graph is not isomorphic to the
original. -/
theorem roundtrip_duplicates_nodal_loads :
    (roundTripScenario.2.2.load_cases.map (fun lc => lc.nodal_loads.length)
      = [1]) ∧
    (fersFromDict (fun q => q) roundTripScenario.1 roundTripScenario.2.1
        (fersToDict roundTripScenario.1 roundTripScenario.2.2)).toOption =
      some roundTripResult ∧
    roundTripResult.1.load_cases.map (fun lc => lc.nodal_loads.length) = [2] ∧
    (∃ nl, roundTripResult.1.load_cases.map (fun lc => lc.nodal_loads)
      = [[nl, nl]]) :=
  ⟨rfl, rfl, rfl,
    ⟨{ id := 1, node := 3, load_case := 1, magnitude := -1000,
       direction := (0, 1, 0), load_type := "force" }, rfl⟩⟩

/-- C2 counterexample: after loading nodes with explicit ids {3, 7, 12}
into a fresh session, the Node counter still stands at 1 — the
constructors never advance a counter past an explicitly supplied id —
so the next auto-assigned id is 1, not 13 as claimed. -/
theorem explicit_ids_leave_node_counter_at_one :
    explicitIdStep1.2.1.node explicitIdStep1.1 = { id := 3, X := 0, Y := 0, Z := 0 } ∧
    explicitIdStep3.2.2.node = 1 ∧
    (explicitIdStep4.2.1.node explicitIdStep4.1).id = 1 ∧
    (explicitIdStep4.2.1.node explicitIdStep4.1).id ≠ 13 :=
  ⟨rfl, rfl, rfl, (by decide : (1 : Nat) ≠ 13)⟩

/-- C2 amended: constructing a Node or a Member with an explicit
(non-zero) id assigns that id but leaves the kind's counter unchanged;
the next auto-assigned id is still the old counter value. -/
theorem explicit_id_construction_keeps_counter (h : Heap) (c : Counters)
    (X Y Z : ℚ) (i : Nat) (hi : i ≠ 0) :
    (nodeInit h c X Y Z (some i)).2.2 = c ∧
    ((nodeInit h c X Y Z (some i)).2.1.node (nodeInit h c X Y Z (some i)).1).id = i ∧
    ((nodeInit h c X Y Z none).2.1.node (nodeInit h c X Y Z none).1).id = c.node ∧
    (nodeInit h c X Y Z none).2.2.node = c.node + 1 ∧
    (match memberInit (fun q => q) h c 0 1 none (some i) none none "" 0
        none none none none .rigid with
     | .ok r => r.2.2.member = c.member ∧ (r.2.1.member r.1).id = i
     | .error _ => False) := by
  refine ⟨rfl, ?_, ?_, rfl, ?_⟩
  · simp [nodeInit, Heap.node, assignedId, hi, List.getD]
  · simp [nodeInit, Heap.node, assignedId, List.getD]
  · simp only [memberInit, normalizeMemberType, bumpedCounter, assignedId]
    simp [Heap.member, List.getD, hi, pure, Except.pure, bind, Except.bind]

/-- C5: `LoadCombination.from_dict` resolves every factor key, but then
calls the constructor with an `id` keyword that `__init__` does not
accept: on a fully resolvable document it raises `TypeError` instead of
returning the rebuilt combination, and an unresolvable key raises the
resolution `KeyError` first. -/
theorem load_combination_from_dict_raises_type_error :
    loadCombinationFromDict initialCounters
      { id := some 1, name := some "combo",
        load_cases_factors := [(.int 1, 3)],
        situation := none, check := some "ALL", limit_state := none }
      [(loadCaseInit initialCounters (some "LC") (some 1)).1]
      = .error (.typeError "__init__() got an unexpected keyword argument id") ∧
    (∃ msg, loadCombinationFromDict initialCounters
      { id := some 1, name := some "combo",
        load_cases_factors := [(.int 1, 3)],
        situation := none, check := some "ALL", limit_state := none }
      [] = .error (.keyError msg)) :=
  ⟨rfl, ⟨_, rfl⟩⟩

/-- Appending to a list and reading back the slot just allocated. -/
theorem getD_concat_length {α : Type} (l : List α) (a d : α) :
    (l ++ [a]).getD l.length d = a := by
  simp [List.getD]

/-- The fraction checks of `DistributedLoad.__init__` fail exactly when
a fraction leaves [0, 1] or the start reaches the end. -/
theorem distributedLoadFracCheck_error_iff (s e : ℚ) :
    (∃ err, distributedLoadFracCheck s e = .error err)
      ↔ (¬(0 ≤ s ∧ s ≤ 1) ∨ ¬(0 ≤ e ∧ e ≤ 1) ∨ s ≥ e) := by
  unfold distributedLoadFracCheck
  split_ifs with h1 h2
  · exact iff_of_true ⟨_, rfl⟩ (h1.imp id Or.inl)
  · exact iff_of_true ⟨_, rfl⟩ (Or.inr (Or.inr h2))
  · refine iff_of_false ?_ ?_
    · rintro ⟨err, hE⟩
      exact hE
    · rintro (h | h | h)
      · exact h1 (Or.inl h)
      · exact h1 (Or.inr h)
      · exact h2 h

/-- `DistributedLoad.__init__` raises exactly when its fraction checks
fail; nothing after them can raise. -/
theorem distributedLoadInit_error_iff (c : Counters) (mp : Nat) (lc : LoadCase)
    (shape : DistributionShape) (mag : ℚ) (dir : ℚ × ℚ × ℚ) (s e : ℚ)
    (endM : Option ℚ) (idOpt : Option Nat) :
    (∃ err, distributedLoadInit c mp lc shape mag dir s e endM idOpt = .error err)
      ↔ (¬(0 ≤ s ∧ s ≤ 1) ∨ ¬(0 ≤ e ∧ e ≤ 1) ∨ s ≥ e) := by
  have hiff := distributedLoadFracCheck_error_iff s e
  cases hc : distributedLoadFracCheck s e with
  | error err =>
    refine iff_of_true ⟨err, ?_⟩ (hiff.mp ⟨err, hc⟩)
    simp [distributedLoadInit, hc]
  | ok u =>
    refine iff_of_false ?_ ?_
    · rintro ⟨err, hE⟩
      simp [distributedLoadInit, hc] at hE
    · intro hR
      obtain ⟨err2, hE⟩ := hiff.mpr hR
      rw [hc] at hE
      exact Except.noConfusion hE

/-- C6 counterexample: `start_frac = end_frac = 0` satisfies the claimed
acceptance condition 0 ≤ start ≤ end ≤ 1, yet construction raises — the
code requires the interval to be strictly increasing. -/
theorem equal_fractions_rejected_despite_claim :
    ((0 : ℚ) ≤ 0 ∧ (0 : ℚ) ≤ 0 ∧ (0 : ℚ) ≤ 1) ∧
    distributedLoadInit initialCounters 0
        (loadCaseInit initialCounters none none).1 .uniform 5 (0, -1, 0) 0 0
        none none
      = .error (.valueError "start_frac cannot be greater or equal than end_frac") :=
  ⟨⟨le_refl 0, le_refl 0, by norm_num⟩, rfl⟩

/-- C6 amended: constructing a `DistributedLoad` raises a validation
error if and only if the fractions violate
0 ≤ start_frac < end_frac ≤ 1 (so reversed, out-of-range and also
degenerate equal intervals are rejected at construction); in particular
start_frac = 0.7, end_frac = 0.3 fails. -/
theorem distributed_load_fraction_validation (c : Counters) (mp : Nat)
    (lc : LoadCase) (shape : DistributionShape) (mag : ℚ) (dir : ℚ × ℚ × ℚ)
    (s e : ℚ) (endM : Option ℚ) (idOpt : Option Nat) :
    ((∃ err, distributedLoadInit c mp lc shape mag dir s e endM idOpt = .error err)
      ↔ ¬(0 ≤ s ∧ s < e ∧ e ≤ 1)) ∧
    (∃ err, distributedLoadInit c mp lc shape mag dir (7/10) (3/10) endM idOpt
      = .error err) := by
  constructor
  · rw [distributedLoadInit_error_iff]
    constructor
    · rintro (h | h | h) hc
      · exact h ⟨hc.1, le_of_lt (lt_of_lt_of_le hc.2.1 hc.2.2)⟩
      · exact h ⟨le_of_lt (lt_of_le_of_lt hc.1 hc.2.1), hc.2.2⟩
      · exact absurd hc.2.1 (not_lt.mpr h)
    · intro hn
      by_contra ho
      push_neg at ho
      exact hn ⟨ho.1.1, ho.2.2, ho.2.1.2⟩
  · rw [distributedLoadInit_error_iff]
    right
    right
    norm_num

/-- C7: a NORMAL member without a Section fails construction, the same
construction as RIGID succeeds and stores weight 0, and with a Section
the stored default weight equals density × area × length (whatever the
arithmetic square root used by `length` returns). -/
theorem member_section_requirement_and_weight (sq : ℚ → ℚ) (h : Heap)
    (c : Counters) (s e : Nat) :
    (∃ err, memberInit sq h c s e none = .error err) ∧
    (match memberInit sq h c s e none none none none "" 0 none none none none
        .rigid with
     | .ok r => (r.2.1.member r.1).weight = 0
     | .error _ => False) ∧
    (∀ sp, match memberInit sq h c s e (some sp) with
     | .ok r =>
       (r.2.1.member r.1).weight =
         (h.materialAt (h.sectionAt sp).material).density *
           (h.sectionAt sp).area * memberLength sq h s e
     | .error _ => False) := by
  refine ⟨⟨_, rfl⟩, ?_, ?_⟩
  · simp [memberInit, normalizeMemberType, memberWeightMethod, Heap.member,
      getD_concat_length, pure, Except.pure, bind, Except.bind]
  · intro sp
    simp only [memberInit, normalizeMemberType, memberWeightMethod]
    simp [Heap.member, getD_concat_length, pure, Except.pure, bind, Except.bind]
    tauto

theorem nodalLoadFromDict_ok (c : Counters) (data : NodalLoadDoc)
    (nodes : List (Nat × Nat)) (lc : LoadCase) (nl : NodalLoad)
    (lc' : LoadCase) (c' : Counters)
    (hok : nodalLoadFromDict c data nodes lc = .ok (nl, lc', c')) :
    lc' = { lc with nodal_loads := lc.nodal_loads ++ [nl] } := by
  unfold nodalLoadFromDict at hok
  cases htr : truthyId data.node with
  | none => simp [htr, bind, Except.bind, pure, Except.pure] at hok
  | some nid =>
    cases hg : odGet? nodes nid with
    | none => simp [htr, hg, bind, Except.bind, pure, Except.pure] at hok
    | some nptr =>
      cases hid : data.id with
      | none =>
        simp [htr, hg, hid, nodalLoadInit, bind, Except.bind, pure, Except.pure] at hok
        obtain ⟨h1, h2, h3⟩ := hok
        rw [← h2, ← h1]
      | some lid =>
        simp [htr, hg, hid, nodalLoadInit, bind, Except.bind, pure, Except.pure] at hok
        obtain ⟨h1, h2, h3⟩ := hok
        rw [← h2, ← h1]

theorem nodalMomentFromDict_ok (c : Counters) (data : NodalMomentDoc)
    (nodes : List (Nat × Nat)) (lc : LoadCase) (nm : NodalMoment)
    (lc' : LoadCase) (c' : Counters)
    (hok : nodalMomentFromDict c data nodes lc = .ok (nm, lc', c')) :
    lc' = { lc with nodal_moments := lc.nodal_moments ++ [nm] } := by
  unfold nodalMomentFromDict at hok
  cases htr : truthyId data.node with
  | none => simp [htr, bind, Except.bind, pure, Except.pure] at hok
  | some nid =>
    cases hg : odGet? nodes nid with
    | none => simp [htr, hg, bind, Except.bind, pure, Except.pure] at hok
    | some nptr =>
      cases hid : data.id with
      | none =>
        simp [htr, hg, hid, nodalMomentInit, bind, Except.bind, pure, Except.pure] at hok
        obtain ⟨h1, h2, h3⟩ := hok
        rw [← h2, ← h1]
      | some lid =>
        simp [htr, hg, hid, nodalMomentInit, bind, Except.bind, pure, Except.pure] at hok
        obtain ⟨h1, h2, h3⟩ := hok
        rw [← h2, ← h1]

theorem distributedLoadInit_ok (c : Counters) (mp : Nat) (lc : LoadCase)
    (shape : DistributionShape) (mag : ℚ) (dir : ℚ × ℚ × ℚ) (s e : ℚ)
    (endM : Option ℚ) (idOpt : Option Nat) (dl : DistributedLoad)
    (lc' : LoadCase) (c' : Counters)
    (hok : distributedLoadInit c mp lc shape mag dir s e endM idOpt
      = .ok (dl, lc', c')) :
    lc' = { lc with distributed_loads := lc.distributed_loads ++ [dl] } := by
  unfold distributedLoadInit at hok
  cases hc : distributedLoadFracCheck s e with
  | error err => simp [hc, bind, Except.bind] at hok
  | ok u =>
    simp [hc, bind, Except.bind, pure, Except.pure] at hok
    obtain ⟨h1, h2, h3⟩ := hok
    rw [← h2, ← h1]

theorem distributedLoadFromDict_ok (c : Counters) (data : DistributedLoadDoc)
    (members : List (Nat × Nat)) (lc : LoadCase) (dl : DistributedLoad)
    (lc' : LoadCase) (c' : Counters)
    (hok : distributedLoadFromDict c data members lc = .ok (dl, lc', c')) :
    lc' = { lc with distributed_loads := lc.distributed_loads ++ [dl] } := by
  unfold distributedLoadFromDict at hok
  cases htr : truthyId data.member with
  | none => simp [htr, bind, Except.bind, pure, Except.pure] at hok
  | some mid =>
    cases hg : odGet? members mid with
    | none => simp [htr, hg, bind, Except.bind, pure, Except.pure] at hok
    | some mptr =>
      cases hinit : distributedLoadInit c mptr lc data.distribution_shape
          data.magnitude data.direction data.start_frac data.end_frac
          data.end_magnitude data.id with
      | error err =>
        simp [htr, hg, hinit, bind, Except.bind, pure, Except.pure] at hok
      | ok t =>
        obtain ⟨dl0, lc0, c0⟩ := t
        have hlc0 := distributedLoadInit_ok c mptr lc data.distribution_shape
          data.magnitude data.direction data.start_frac data.end_frac
          data.end_magnitude data.id dl0 lc0 c0 hinit
        simp [htr, hg, hinit, bind, Except.bind, pure, Except.pure] at hok
        rw [← hok.2.1, hlc0, ← hok.1]

theorem loadCaseNodalLoadStep_ok (nodes : List (Nat × Nat)) (lc : LoadCase)
    (c : Counters) (d : NodalLoadDoc) (lc1 : LoadCase) (c1 : Counters)
    (hok : loadCaseNodalLoadStep nodes (lc, c) d = .ok (lc1, c1)) :
    ∃ nl, lc1 = { lc with nodal_loads := lc.nodal_loads ++ [nl, nl] } := by
  unfold loadCaseNodalLoadStep at hok
  cases hfd : nodalLoadFromDict c d nodes lc with
  | error err => simp [hfd, bind, Except.bind] at hok
  | ok t =>
    obtain ⟨nl, lc', c'⟩ := t
    have hlc' := nodalLoadFromDict_ok c d nodes lc nl lc' c' hfd
    simp [hfd, bind, Except.bind, pure, Except.pure] at hok
    refine ⟨nl, ?_⟩
    rw [← hok.1, hlc']
    simp

theorem loadCaseNodalMomentStep_ok (nodes : List (Nat × Nat)) (lc : LoadCase)
    (c : Counters) (d : NodalMomentDoc) (lc1 : LoadCase) (c1 : Counters)
    (hok : loadCaseNodalMomentStep nodes (lc, c) d = .ok (lc1, c1)) :
    ∃ nm, lc1 = { lc with nodal_moments := lc.nodal_moments ++ [nm, nm] } := by
  unfold loadCaseNodalMomentStep at hok
  cases hfd : nodalMomentFromDict c d nodes lc with
  | error err => simp [hfd, bind, Except.bind] at hok
  | ok t =>
    obtain ⟨nm, lc', c'⟩ := t
    have hlc' := nodalMomentFromDict_ok c d nodes lc nm lc' c' hfd
    simp [hfd, bind, Except.bind, pure, Except.pure] at hok
    refine ⟨nm, ?_⟩
    rw [← hok.1, hlc']
    simp

theorem loadCaseDistributedLoadStep_ok (members : List (Nat × Nat))
    (lc : LoadCase) (c : Counters) (d : DistributedLoadDoc) (lc1 : LoadCase)
    (c1 : Counters)
    (hok : loadCaseDistributedLoadStep members (lc, c) d = .ok (lc1, c1)) :
    ∃ dl, lc1 = { lc with distributed_loads := lc.distributed_loads ++ [dl, dl] } := by
  unfold loadCaseDistributedLoadStep at hok
  cases hfd : distributedLoadFromDict c d members lc with
  | error err => simp [hfd, bind, Except.bind] at hok
  | ok t =>
    obtain ⟨dl, lc', c'⟩ := t
    have hlc' := distributedLoadFromDict_ok c d members lc dl lc' c' hfd
    simp [hfd, bind, Except.bind, pure, Except.pure] at hok
    refine ⟨dl, ?_⟩
    rw [← hok.1, hlc']
    simp

theorem foldlM_nodalLoadStep (nodes : List (Nat × Nat)) (L : List NodalLoadDoc) :
    ∀ (lc : LoadCase) (c : Counters) (acc : List NodalLoad)
      (res : LoadCase × Counters),
      lc.nodal_loads = acc.flatMap (fun l => [l, l]) →
      L.foldlM (loadCaseNodalLoadStep nodes) (lc, c) = .ok res →
      ∃ acc' : List NodalLoad,
        res.1.nodal_loads = acc'.flatMap (fun l => [l, l]) ∧
        acc'.length = acc.length + L.length ∧
        res.1.nodal_moments = lc.nodal_moments ∧
        res.1.distributed_loads = lc.distributed_loads ∧
        res.1.rotation_imperfections = lc.rotation_imperfections ∧
        res.1.translation_imperfections = lc.translation_imperfections := by
  induction L with
  | nil =>
    intro lc c acc res hacc hok
    simp only [List.foldlM, pure, Except.pure] at hok
    obtain rfl : (lc, c) = res := by exact Except.ok.inj hok
    exact ⟨acc, hacc, by simp, rfl, rfl, rfl, rfl⟩
  | cons d t ih =>
    intro lc c acc res hacc hok
    rw [List.foldlM_cons] at hok
    cases hstep : loadCaseNodalLoadStep nodes (lc, c) d with
    | error err => rw [hstep] at hok; simp [bind, Except.bind] at hok
    | ok st1 =>
      rw [hstep] at hok
      simp only [bind, Except.bind] at hok
      obtain ⟨lc1, c1⟩ := st1
      obtain ⟨nl, hlc1⟩ := loadCaseNodalLoadStep_ok nodes lc c d lc1 c1 hstep
      have hacc1 : lc1.nodal_loads = (acc ++ [nl]).flatMap (fun l => [l, l]) := by
        rw [hlc1, hacc]
        simp
      obtain ⟨acc', ha, hb, hm, hd, he, hf⟩ := ih lc1 c1 (acc ++ [nl]) res hacc1 hok
      refine ⟨acc', ha, ?_, ?_, ?_, ?_, ?_⟩
      · rw [hb]
        simp
        omega
      · rw [hm, hlc1]
      · rw [hd, hlc1]
      · rw [he, hlc1]
      · rw [hf, hlc1]

theorem foldlM_nodalMomentStep (nodes : List (Nat × Nat)) (L : List NodalMomentDoc) :
    ∀ (lc : LoadCase) (c : Counters) (res : LoadCase × Counters),
      L.foldlM (loadCaseNodalMomentStep nodes) (lc, c) = .ok res →
      res.1.nodal_loads = lc.nodal_loads ∧
      res.1.distributed_loads = lc.distributed_loads := by
  induction L with
  | nil =>
    intro lc c res hok
    simp only [List.foldlM, pure, Except.pure] at hok
    obtain rfl : (lc, c) = res := by exact Except.ok.inj hok
    exact ⟨rfl, rfl⟩
  | cons d t ih =>
    intro lc c res hok
    rw [List.foldlM_cons] at hok
    cases hstep : loadCaseNodalMomentStep nodes (lc, c) d with
    | error err => rw [hstep] at hok; simp [bind, Except.bind] at hok
    | ok st1 =>
      rw [hstep] at hok
      simp only [bind, Except.bind] at hok
      obtain ⟨lc1, c1⟩ := st1
      obtain ⟨nm, hlc1⟩ := loadCaseNodalMomentStep_ok nodes lc c d lc1 c1 hstep
      obtain ⟨ha, hb⟩ := ih lc1 c1 res hok
      constructor
      · rw [ha, hlc1]
      · rw [hb, hlc1]

theorem foldlM_distributedLoadStep (members : List (Nat × Nat))
    (L : List DistributedLoadDoc) :
    ∀ (lc : LoadCase) (c : Counters) (acc : List DistributedLoad)
      (res : LoadCase × Counters),
      lc.distributed_loads = acc.flatMap (fun l => [l, l]) →
      L.foldlM (loadCaseDistributedLoadStep members) (lc, c) = .ok res →
      ∃ acc' : List DistributedLoad,
        res.1.distributed_loads = acc'.flatMap (fun l => [l, l]) ∧
        acc'.length = acc.length + L.length ∧
        res.1.nodal_loads = lc.nodal_loads := by
  induction L with
  | nil =>
    intro lc c acc res hacc hok
    simp only [List.foldlM, pure, Except.pure] at hok
    obtain rfl : (lc, c) = res := by exact Except.ok.inj hok
    exact ⟨acc, hacc, by simp, rfl⟩
  | cons d t ih =>
    intro lc c acc res hacc hok
    rw [List.foldlM_cons] at hok
    cases hstep : loadCaseDistributedLoadStep members (lc, c) d with
    | error err => rw [hstep] at hok; simp [bind, Except.bind] at hok
    | ok st1 =>
      rw [hstep] at hok
      simp only [bind, Except.bind] at hok
      obtain ⟨lc1, c1⟩ := st1
      obtain ⟨dl, hlc1⟩ := loadCaseDistributedLoadStep_ok members lc c d lc1 c1 hstep
      have hacc1 : lc1.distributed_loads = (acc ++ [dl]).flatMap (fun l => [l, l]) := by
        rw [hlc1, hacc]
        simp
      obtain ⟨acc', ha, hb, hnl⟩ := ih lc1 c1 (acc ++ [dl]) res hacc1 hok
      refine ⟨acc', ha, ?_, ?_⟩
      · rw [hb]
        simp
        omega
      · rw [hnl, hlc1]

/-- C10: `LoadCase.from_dict` creates exactly one load object per entry
of the document's `nodal_loads` and `distributed_loads` arrays, but each
created load ends up in the rebuilt case's list twice: once appended by
the load constructor's self-registration and once more by `from_dict`'s
own `add_...` call. -/
theorem load_case_from_dict_registers_each_load_twice
    (c : Counters) (data : LoadCaseDoc) (nodes members : List (Nat × Nat))
    (lcRes : LoadCase) (cRes : Counters)
    (hok : loadCaseFromDict c data nodes members = .ok (lcRes, cRes)) :
    (∃ ln : List NodalLoad, lcRes.nodal_loads = ln.flatMap (fun l => [l, l]) ∧
      ln.length = data.nodal_loads.length) ∧
    (∃ ld : List DistributedLoad,
      lcRes.distributed_loads = ld.flatMap (fun l => [l, l]) ∧
      ld.length = data.distributed_loads.length) := by
  unfold loadCaseFromDict at hok
  rcases hinit : loadCaseInit c data.name data.id with ⟨lc0, c1⟩
  rw [hinit] at hok
  dsimp only at hok
  have hnl0 : lc0.nodal_loads = [] := by
    have : lc0 = (loadCaseInit c data.name data.id).1 := by rw [hinit]
    rw [this]
    rfl
  have hdl0 : lc0.distributed_loads = [] := by
    have : lc0 = (loadCaseInit c data.name data.id).1 := by rw [hinit]
    rw [this]
    rfl
  generalize hc2 : (match data.id with
    | some lid => if lid ≥ c1.loadcase then { c1 with loadcase := lid + 1 } else c1
    | none => c1) = c2v at hok
  cases h1 : data.nodal_loads.foldlM (loadCaseNodalLoadStep nodes) (lc0, c2v) with
  | error err => rw [h1] at hok; simp [bind, Except.bind] at hok
  | ok st1 =>
    rw [h1] at hok
    simp only [bind, Except.bind] at hok
    obtain ⟨lc1, c1v⟩ := st1
    obtain ⟨ln, hln, hlnLen, _, hdl1, _, _⟩ :=
      foldlM_nodalLoadStep nodes data.nodal_loads lc0 c2v [] (lc1, c1v)
        (by simp [hnl0]) h1
    dsimp only at hln hdl1
    cases h2 : data.nodal_moments.foldlM (loadCaseNodalMomentStep nodes) (lc1, c1v) with
    | error err => rw [h2] at hok; simp [bind, Except.bind] at hok
    | ok st2 =>
      rw [h2] at hok
      simp only [bind, Except.bind] at hok
      obtain ⟨lc2, c2v2⟩ := st2
      obtain ⟨hnl2, hdl2⟩ :=
        foldlM_nodalMomentStep nodes data.nodal_moments lc1 c1v (lc2, c2v2) h2
      dsimp only at hnl2 hdl2
      cases h3 : data.distributed_loads.foldlM (loadCaseDistributedLoadStep members)
          (lc2, c2v2) with
      | error err => rw [h3] at hok; simp [bind, Except.bind] at hok
      | ok st3 =>
        rw [h3] at hok
        simp only [bind, Except.bind, pure, Except.pure] at hok
        obtain ⟨lc3, c3v⟩ := st3
        obtain ⟨ld, hld, hldLen, hnl3⟩ :=
          foldlM_distributedLoadStep members data.distributed_loads lc2 c2v2 []
            (lc3, c3v) (by rw [hdl2, hdl1, hdl0]; simp) h3
        dsimp only at hld hnl3
        obtain ⟨hlc, hcv⟩ : ({ lc3 with
            rotation_imperfections :=
              lc3.rotation_imperfections ++ data.rotation_imperfections,
            translation_imperfections :=
              lc3.translation_imperfections ++ data.translation_imperfections }
              = lcRes) ∧ c3v = cRes := by
          constructor
          · exact congrArg Prod.fst (Except.ok.inj hok)
          · exact congrArg Prod.snd (Except.ok.inj hok)
        constructor
        · refine ⟨ln, ?_, by simpa using hlnLen⟩
          rw [← hlc]
          show lc3.nodal_loads = _
          rw [hnl3, hnl2, hln]
        · refine ⟨ld, ?_, by simpa using hldLen⟩
          rw [← hlc]
          show lc3.distributed_loads = _
          rw [hld]


/-- Witness for C10 at a concrete document: one nodal-load entry and one
distributed-load entry, both resolvable. -/
theorem load_case_from_dict_registers_twice_witness :
    loadCaseFromDict initialCounters loadCaseDupDoc [(2, 0)] [(1, 0)]
      = .ok (loadCaseDupResult.1, loadCaseDupResult.2) ∧
    ((∃ ln : List NodalLoad,
        loadCaseDupResult.1.nodal_loads = ln.flatMap (fun l => [l, l]) ∧
        ln.length = loadCaseDupDoc.nodal_loads.length) ∧
      (∃ ld : List DistributedLoad,
        loadCaseDupResult.1.distributed_loads = ld.flatMap (fun l => [l, l]) ∧
        ld.length = loadCaseDupDoc.distributed_loads.length)) :=
  ⟨rfl, load_case_from_dict_registers_each_load_twice initialCounters
    loadCaseDupDoc [(2, 0)] [(1, 0)] loadCaseDupResult.1 loadCaseDupResult.2 rfl⟩

theorem odKeys_cons {α β : Type} (q : α × β) (l : List (α × β)) :
    odKeys (q :: l) = q.1 :: odKeys l := rfl

theorem odInsert_cons_hit {α β : Type} [DecidableEq α] (p : α × β)
    (rest : List (α × β)) (k : α) (v : β) (hpk : p.1 = k) :
    odInsert (p :: rest) k v = (p.1, v) :: rest := by
  simp [odInsert, hpk]

theorem odInsert_cons_miss {α β : Type} [DecidableEq α] (p : α × β)
    (rest : List (α × β)) (k : α) (v : β) (hpk : ¬p.1 = k) :
    odInsert (p :: rest) k v = p :: odInsert rest k v := by
  simp [odInsert, hpk]

theorem mem_odKeys_odInsert {α β : Type} [DecidableEq α] (d : List (α × β))
    (k : α) (v : β) (x : α) :
    x ∈ odKeys (odInsert d k v) ↔ x = k ∨ x ∈ odKeys d := by
  induction d with
  | nil => simp [odInsert, odKeys]
  | cons p rest ih =>
    by_cases hpk : p.1 = k
    · rw [odInsert_cons_hit p rest k v hpk, odKeys_cons, odKeys_cons]
      simp only [List.mem_cons]
      constructor
      · rintro (h | h)
        · exact Or.inl (h.trans hpk)
        · exact Or.inr (Or.inr h)
      · rintro (h | h | h)
        · exact Or.inl (h.trans hpk.symm)
        · exact Or.inl h
        · exact Or.inr h
    · rw [odInsert_cons_miss p rest k v hpk, odKeys_cons, odKeys_cons]
      simp only [List.mem_cons, ih]
      tauto

theorem odKeys_nodup_odInsert {α β : Type} [DecidableEq α] (d : List (α × β))
    (k : α) (v : β) :
    (odKeys d).Nodup → (odKeys (odInsert d k v)).Nodup := by
  induction d with
  | nil =>
    intro _
    simp [odInsert, odKeys]
  | cons p rest ih =>
    intro h
    by_cases hpk : p.1 = k
    · rw [odInsert_cons_hit p rest k v hpk, odKeys_cons]
      rw [odKeys_cons] at h
      exact h
    · rw [odInsert_cons_miss p rest k v hpk, odKeys_cons]
      rw [odKeys_cons, List.nodup_cons] at h
      rw [List.nodup_cons]
      refine ⟨?_, ih h.2⟩
      intro hmem
      rcases (mem_odKeys_odInsert rest k v p.1).mp hmem with h' | h'
      · exact hpk h'
      · exact h.1 h'

theorem idKeyed_odInsert {α β : Type} [DecidableEq α] (f : β → α)
    (d : List (α × β)) (v : β) :
    (∀ p ∈ d, p.1 = f p.2) → ∀ p ∈ odInsert d (f v) v, p.1 = f p.2 := by
  induction d with
  | nil =>
    intro _ p hp
    simp [odInsert] at hp
    rw [hp]
  | cons q rest ih =>
    intro h p hp
    by_cases hqk : q.1 = f v
    · rw [odInsert_cons_hit q rest (f v) v hqk] at hp
      rcases List.mem_cons.mp hp with rfl | hp'
      · exact hqk
      · exact h p (List.mem_cons_of_mem q hp')
    · rw [odInsert_cons_miss q rest (f v) v hqk] at hp
      rcases List.mem_cons.mp hp with rfl | hp'
      · exact h _ (List.mem_cons_self _ _)
      · exact ih (fun r hr => h r (List.mem_cons_of_mem q hr)) p hp'

/-- A fold step that either leaves the dict unchanged or performs one
keyed insertion whose key is determined by the inserted value. -/
def InsertOrSkip {α β γ : Type} [DecidableEq α] (f : β → α)
    (step : List (α × β) → γ → List (α × β)) : Prop :=
  ∀ d x, step d x = d ∨ ∃ v, step d x = odInsert d (f v) v

theorem foldl_insertOrSkip_nodup {α β γ : Type} [DecidableEq α] {f : β → α}
    {step : List (α × β) → γ → List (α × β)} (hstep : InsertOrSkip f step)
    (L : List γ) :
    ∀ d, (odKeys d).Nodup → (odKeys (L.foldl step d)).Nodup := by
  induction L with
  | nil => intro d h; simpa using h
  | cons a t ih =>
    intro d h
    rw [List.foldl_cons]
    rcases hstep d a with he | ⟨v, he⟩
    · rw [he]; exact ih d h
    · rw [he]; exact ih _ (odKeys_nodup_odInsert d (f v) v h)

theorem foldl_insertOrSkip_idKeyed {α β γ : Type} [DecidableEq α] {f : β → α}
    {step : List (α × β) → γ → List (α × β)} (hstep : InsertOrSkip f step)
    (L : List γ) :
    ∀ d, (∀ p ∈ d, p.1 = f p.2) → ∀ p ∈ L.foldl step d, p.1 = f p.2 := by
  induction L with
  | nil => intro d h; simpa using h
  | cons a t ih =>
    intro d h
    rw [List.foldl_cons]
    rcases hstep d a with he | ⟨v, he⟩
    · rw [he]; exact ih d h
    · rw [he]; exact ih _ (idKeyed_odInsert f d v h)

theorem foldl_insertOrSkip_mem {α β γ : Type} [DecidableEq α] {f : β → α}
    {step : List (α × β) → γ → List (α × β)} (hstep : InsertOrSkip f step)
    (L : List γ) :
    ∀ d k, k ∈ odKeys d → k ∈ odKeys (L.foldl step d) := by
  induction L with
  | nil => intro d k h; simpa using h
  | cons a t ih =>
    intro d k h
    rw [List.foldl_cons]
    rcases hstep d a with he | ⟨v, he⟩
    · rw [he]; exact ih d k h
    · rw [he]
      exact ih _ k ((mem_odKeys_odInsert d (f v) v k).mpr (Or.inr h))

theorem odKeys_eq_map_odValues {α β : Type} (f : β → α) (d : List (α × β)) :
    (∀ p ∈ d, p.1 = f p.2) → odKeys d = (odValues d).map f := by
  induction d with
  | nil => intro _; rfl
  | cons p rest ih =>
    intro h
    have hrest := ih (fun r hr => h r (List.mem_cons_of_mem p hr))
    show p.1 :: odKeys rest = f p.2 :: (odValues rest).map f
    rw [h p (List.mem_cons_self p rest), hrest]

theorem foldl_foldl_flatMap {β γ δ : Type} (g : γ → List β) (ins : δ → β → δ)
    (L : List γ) : ∀ d : δ,
    L.foldl (fun d m => (g m).foldl ins d) d = (L.flatMap g).foldl ins d := by
  induction L with
  | nil => intro d; rfl
  | cons a t ih =>
    intro d
    simp only [List.foldl_cons, List.flatMap_cons, List.foldl_append]
    exact ih _

theorem foldl_insert_mem_of_mem {α β : Type} [DecidableEq α] (f : β → α)
    (L : List β) : ∀ (d : List (α × β)) (v : β), v ∈ L →
    f v ∈ odKeys (L.foldl (fun d v => odInsert d (f v) v) d) := by
  induction L with
  | nil => intro d v hv; cases hv
  | cons a t ih =>
    intro d v hv
    rw [List.foldl_cons]
    rcases List.mem_cons.mp hv with rfl | hv'
    · refine foldl_insertOrSkip_mem (f := f) (fun d x => Or.inr ⟨x, rfl⟩) t _ _ ?_
      exact (mem_odKeys_odInsert d (f v) v (f v)).mpr (Or.inl rfl)
    · exact ih _ v hv'

/-- The member-iteration step of the (modelled) per-set section catalog. -/
def sectionCollectStep (h : Heap) (d : List (Nat × Section)) (mp : Nat) :
    List (Nat × Section) :=
  match (h.member mp).sectionRef with
  | none => d
  | some sp =>
    let sec := h.sectionAt sp
    odInsert d sec.id sec

theorem memberSetGetUniqueSections_eq (h : Heap) (ms : MemberSet) :
    memberSetGetUniqueSections h ms =
      odValues (ms.members.foldl (sectionCollectStep h) []) := rfl

theorem sectionCollectStep_insertOrSkip (h : Heap) :
    InsertOrSkip Section.id (sectionCollectStep h) := by
  intro d mp
  cases hs : (h.member mp).sectionRef with
  | none => exact Or.inl (by simp [sectionCollectStep, hs])
  | some sp => exact Or.inr ⟨h.sectionAt sp, by simp [sectionCollectStep, hs]⟩

theorem foldl_sectionCollectStep_mem (h : Heap) (L : List Nat) :
    ∀ (d : List (Nat × Section)) (mp sp : Nat), mp ∈ L →
    (h.member mp).sectionRef = some sp →
    (h.sectionAt sp).id ∈ odKeys (L.foldl (sectionCollectStep h) d) := by
  induction L with
  | nil => intro d mp sp hmem _; cases hmem
  | cons a t ih =>
    intro d mp sp hmem hsec
    rw [List.foldl_cons]
    rcases List.mem_cons.mp hmem with rfl | hmem'
    · refine foldl_insertOrSkip_mem (sectionCollectStep_insertOrSkip h) t _ _ ?_
      rw [show sectionCollectStep h d mp
          = odInsert d (h.sectionAt sp).id (h.sectionAt sp) from by
        simp [sectionCollectStep, hsec]]
      exact (mem_odKeys_odInsert d _ _ _).mpr (Or.inl rfl)
    · exact ih _ mp sp hmem' hsec

theorem getUniqueSections_eq_flat (h : Heap) (f : FERS) :
    f.getUniqueSectionsFromAllMemberSets h =
      odValues ((f.member_sets.flatMap
          (fun msPtr => memberSetGetUniqueSections h (h.memberSet msPtr))).foldl
        (fun d sec => odInsert d sec.id sec) []) := by
  unfold FERS.getUniqueSectionsFromAllMemberSets
  rw [foldl_foldl_flatMap
    (fun msPtr => memberSetGetUniqueSections h (h.memberSet msPtr))
    (fun d sec => odInsert d sec.id sec) f.member_sets []]

/-- C8: the unique-catalog extraction methods are pure functions of the
aggregate — calling any of the five twice on an unmodified model yields
the same ordered list — and the section catalog is deduplicated: its
entries carry pairwise-distinct ids, and the id of any section
referenced by any member of any member set appears in it exactly once
(so two members sharing one section contribute a single entry). -/
theorem catalog_extraction_stable_and_dedups (h : Heap) (f : FERS) :
    f.getUniqueMaterialsFromAllMemberSets h
      = f.getUniqueMaterialsFromAllMemberSets h ∧
    f.getUniqueSectionsFromAllMemberSets h
      = f.getUniqueSectionsFromAllMemberSets h ∧
    f.getUniqueMemberHingesFromAllMemberSets h
      = f.getUniqueMemberHingesFromAllMemberSets h ∧
    f.getUniqueNodalSupportFromAllMemberSets h
      = f.getUniqueNodalSupportFromAllMemberSets h ∧
    f.getUniqueShapePathsFromAllMemberSets h
      = f.getUniqueShapePathsFromAllMemberSets h ∧
    ((f.getUniqueSectionsFromAllMemberSets h).map Section.id).Nodup ∧
    (∀ msPtr ∈ f.member_sets, ∀ mp ∈ (h.memberSet msPtr).members, ∀ sp,
      (h.member mp).sectionRef = some sp →
      ((f.getUniqueSectionsFromAllMemberSets h).map Section.id).count
        (h.sectionAt sp).id = 1) := by
  have hinsOuter : InsertOrSkip Section.id
      (fun (d : List (Nat × Section)) (sec : Section) => odInsert d sec.id sec) :=
    fun d x => Or.inr ⟨x, rfl⟩
  have houterIK := foldl_insertOrSkip_idKeyed hinsOuter
    (f.member_sets.flatMap
      (fun msPtr => memberSetGetUniqueSections h (h.memberSet msPtr)))
    [] (by simp)
  have houterND := foldl_insertOrSkip_nodup hinsOuter
    (f.member_sets.flatMap
      (fun msPtr => memberSetGetUniqueSections h (h.memberSet msPtr)))
    [] (by simp [odKeys])
  have hkeysEq := odKeys_eq_map_odValues Section.id
    ((f.member_sets.flatMap
      (fun msPtr => memberSetGetUniqueSections h (h.memberSet msPtr))).foldl
      (fun d sec => odInsert d sec.id sec) []) houterIK
  refine ⟨rfl, rfl, rfl, rfl, rfl, ?_, ?_⟩
  · rw [getUniqueSections_eq_flat, ← hkeysEq]
    exact houterND
  · intro msPtr hms mp hmp sp hsec
    rw [getUniqueSections_eq_flat, ← hkeysEq]
    have hinnerIK := foldl_insertOrSkip_idKeyed (sectionCollectStep_insertOrSkip h)
      (h.memberSet msPtr).members [] (by simp)
    have hinnerKeys := odKeys_eq_map_odValues Section.id
      ((h.memberSet msPtr).members.foldl (sectionCollectStep h) []) hinnerIK
    have hinnerMem : (h.sectionAt sp).id ∈
        odKeys ((h.memberSet msPtr).members.foldl (sectionCollectStep h) []) :=
      foldl_sectionCollectStep_mem h (h.memberSet msPtr).members [] mp sp hmp hsec
    rw [hinnerKeys] at hinnerMem
    obtain ⟨sec', hsec', hid'⟩ := List.mem_map.mp hinnerMem
    have hsecInList : sec' ∈ memberSetGetUniqueSections h (h.memberSet msPtr) := by
      rw [memberSetGetUniqueSections_eq]
      exact hsec'
    have hflat : sec' ∈ f.member_sets.flatMap
        (fun msPtr => memberSetGetUniqueSections h (h.memberSet msPtr)) :=
      List.mem_flatMap.mpr ⟨msPtr, hms, hsecInList⟩
    have hkm := foldl_insert_mem_of_mem Section.id
      (f.member_sets.flatMap
        (fun msPtr => memberSetGetUniqueSections h (h.memberSet msPtr)))
      [] sec' hflat
    rw [show Section.id sec' = (h.sectionAt sp).id from hid'] at hkm
    exact List.count_eq_one_of_mem houterND hkm

/-- Witness for C8 at the shared-section scenario: both members of the
single member set reference section pointer 0, and the catalog carries
its id exactly once. -/
theorem catalog_extraction_witness :
    (0 ∈ sharedSectionScenario.2.2.member_sets ∧
      0 ∈ (sharedSectionScenario.1.memberSet 0).members ∧
      1 ∈ (sharedSectionScenario.1.memberSet 0).members ∧
      (sharedSectionScenario.1.member 0).sectionRef = some 0 ∧
      (sharedSectionScenario.1.member 1).sectionRef = some 0) ∧
    ((sharedSectionScenario.2.2.getUniqueSectionsFromAllMemberSets
        sharedSectionScenario.1).map Section.id).count
      (sharedSectionScenario.1.sectionAt 0).id = 1 :=
  ⟨⟨by decide, by decide, by decide, rfl, rfl⟩,
    (catalog_extraction_stable_and_dedups sharedSectionScenario.1
      sharedSectionScenario.2.2).2.2.2.2.2.2 0 (by decide) 0 (by decide) 0 rfl⟩


/-- Witness for C2's amended statement at a concrete input: explicit
id 3 on a fresh counter set leaves the counters untouched. -/
theorem explicit_id_keeps_counter_witness :
    (3 : Nat) ≠ 0 ∧
    (nodeInit {} initialCounters 0 0 0 (some 3)).2.2 = initialCounters :=
  ⟨by decide,
    (explicit_id_construction_keeps_counter {} initialCounters 0 0 0 3
      (by decide)).1⟩

end FERSVerify